import Mathlib

/-!
# ectologger: a shallow embedding of the logging facade

The Go package `ectologger` (files `interface.go`, `logger.go`) is embedded as
state-passing Lean functions over an explicit `World`:

* a root logger `*EctoLogger` is never written after construction, so it is
  modelled by its value (its only field is the callback);
* a derived logger `*ectoSubLogger` is a pointer to a mutable struct, so it is
  modelled by an address into `World.subs`; method bodies load and store
  through that address exactly where the Go code reads and assigns `l.x`;
* invoking a callback `l.logFunc(msg)` is recorded as one `Call` appended to
  `World.calls`, which is what the capturing callbacks of `logger_test.go`
  observe.

The default console backend `DefaultEctoLogFunc` and the zap adapter
(`zapadapter/adapter.go`) are pure functions of the message, embedded after
the facade.

A Go `map[string]interface{}` is modelled by its contents (a finite map with
unique keys); no function of the package writes into an existing map, so the
contents are all a logger can observe of the maps handed to it.

In that world a callback does nothing but receive the message. Code outside
the package can do more: the derived entry points hand the callback the
logger's own map, and a callback may hold the logger. The namespace `Shared`
embeds the derived entry points once more over a world in which a map is a
reference and a callback acts on loggers and maps; what is said about the
state a callback leaves behind is said there.
-/

namespace Ectologger

/-! ## Values carried by a log message -/

/-- An error value as built by `errors.New(text)`: `Error()` returns `text`. -/
structure GoError where
  text : String
deriving DecidableEq, Repr

/-- The values of type `interface{}` that the model lets a field mapping hold:
the untyped nil, booleans, integers, strings, error values, and a value of a
kind `encoding/json` cannot encode (a channel or a function), named by its
type. -/
inductive Value where
  | nil
  | bool (b : Bool)
  | int (n : Int)
  | str (s : String)
  | error (e : GoError)
  | unsupported (typeName : String)
deriving DecidableEq, Repr

/-- Contents of a `map[string]interface{}`. -/
abbrev FieldMap := AList (fun _ : String => Value)

/-- A `context.Context` handle; the facade only stores and forwards it. The nil
context is `none` at the places that hold an `Option GoContext`. -/
abbrev GoContext := Nat

/-- Modelled from the spec: `ectolinq.Merge` is declared in the external module
`github.com/Gobusters/ectolinq`, which is not part of this repository. It is
the overlay of its second argument onto its first: the result is a new map
that holds every key of `m2` with the value `m2` gives it and every other key
of `m1` with the value `m1` gives it; neither argument is written. -/
def Merge (m1 m2 : FieldMap) : FieldMap := m2 ∪ m1

/-- The struct `EctoLogMessage` of `logger.go`. -/
structure EctoLogMessage where
  Level : String
  Message : String
  Fields : FieldMap
  Ctx : Option GoContext
  Err : Option GoError
deriving DecidableEq

/-- A callback of type `EctoLogFunc`, named by its identity. What the callback
does with a message is its own business; the facade only invokes it. -/
abbrev EctoLogFunc := Nat

/-- The struct `EctoLogger` (the root logger). -/
structure EctoLogger where
  logFunc : EctoLogFunc
deriving DecidableEq, Repr

/-- The struct `ectoSubLogger` (a derived logger). -/
structure ectoSubLogger where
  logFunc : EctoLogFunc
  fields : FieldMap
  err : Option GoError
  ctx : Option GoContext
deriving DecidableEq

/-- Address of an `ectoSubLogger` in the world. -/
abbrev Ptr := Nat

/-- A value of the interface type `Logger`: either a root logger or a pointer
to a derived logger. -/
inductive Logger where
  | root (l : EctoLogger)
  | sub (l : Ptr)
deriving DecidableEq, Repr

/-! ## The world: allocated derived loggers and the callback trace -/

/-- One invocation `logFunc(msg)` of a callback. -/
structure Call where
  logFunc : EctoLogFunc
  msg : EctoLogMessage
deriving DecidableEq

/-- State of a run: the derived loggers allocated so far (`subs p` is the
struct at address `p`), the next free address, and the callback invocations
made so far, oldest first. -/
structure World where
  subs : Ptr → Option ectoSubLogger
  next : Ptr
  calls : List Call

/-- The world before anything was allocated or logged. -/
def World.empty : World := { subs := fun _ => none, next := 0, calls := [] }

/-- Computations over the world; a computation has no result when it
dereferences an address at which nothing is allocated. -/
abbrev M := StateT World Option

/-- The Go expression `&ectoSubLogger{...}`: allocate at the next free address. -/
def alloc (s : ectoSubLogger) : M Ptr := fun w =>
  some (w.next, { w with subs := fun q => if q = w.next then some s else w.subs q,
                         next := w.next + 1 })

/-- Read the struct behind a pointer. -/
def load (p : Ptr) : M ectoSubLogger := fun w =>
  match w.subs p with
  | some s => some (s, w)
  | none => none

/-- Write the struct behind a pointer. -/
def store (p : Ptr) (s : ectoSubLogger) : M Unit := fun w =>
  some ((), { w with subs := fun q => if q = p then some s else w.subs q })

/-- The Go statement `logFunc(msg)`. -/
def invoke (logFunc : EctoLogFunc) (msg : EctoLogMessage) : M Unit := fun w =>
  some ((), { w with calls := w.calls ++ [{ logFunc := logFunc, msg := msg }] })

/-! ## The root logger (`logger.go`, `EctoLogger`) -/

section Facade

/- `fmt.Sprintf` belongs to the Go standard library; the facade only hands its
result to the callback, so it is a parameter of the `f` entry points. -/
variable (Sprintf : String → List Value → String)

/-- `NewEctoLogger` creates a root logger with the given log function. -/
def NewEctoLogger (logFunc : EctoLogFunc) : M Logger :=
  pure (Logger.root { logFunc := logFunc })

/-- `WithFields` on the root: a fresh derived logger holding `fields`. -/
def EctoLogger.WithFields (l : EctoLogger) (fields : FieldMap) : M Logger := do
  let p ← alloc { logFunc := l.logFunc, fields := fields, err := none, ctx := none }
  return Logger.sub p

/-- `WithField` on the root: a fresh derived logger holding the one-entry map. -/
def EctoLogger.WithField (l : EctoLogger) (key : String) (value : Value) : M Logger := do
  let p ← alloc { logFunc := l.logFunc, fields := AList.singleton key value,
                  err := none, ctx := none }
  return Logger.sub p

/-- `WithContext` on the root: a fresh derived logger with empty fields. -/
def EctoLogger.WithContext (l : EctoLogger) (ctx : Option GoContext) : M Logger := do
  let p ← alloc { logFunc := l.logFunc, fields := ∅, err := none, ctx := ctx }
  return Logger.sub p

/-- `WithError` on the root: a fresh derived logger with empty fields. -/
def EctoLogger.WithError (l : EctoLogger) (err : Option GoError) : M Logger := do
  let p ← alloc { logFunc := l.logFunc, fields := ∅, err := err, ctx := none }
  return Logger.sub p

/-- `Debug` on the root logger. -/
def EctoLogger.Debug (l : EctoLogger) (msg : String) : M Unit :=
  invoke l.logFunc { Level := "debug", Message := msg, Fields := ∅, Err := none, Ctx := none }

/-- `Debugf` on the root logger. -/
def EctoLogger.Debugf (l : EctoLogger) (format : String) (args : List Value) : M Unit :=
  invoke l.logFunc { Level := "debug", Message := Sprintf format args, Fields := ∅,
                     Err := none, Ctx := none }

/-- `DebugContext` on the root logger. -/
def EctoLogger.DebugContext (l : EctoLogger) (ctx : Option GoContext) (msg : String) : M Unit :=
  invoke l.logFunc { Level := "debug", Message := msg, Fields := ∅, Err := none, Ctx := ctx }

/-- `DebugContextf` on the root logger. -/
def EctoLogger.DebugContextf (l : EctoLogger) (ctx : Option GoContext) (format : String)
    (args : List Value) : M Unit :=
  invoke l.logFunc { Level := "debug", Message := Sprintf format args, Fields := ∅,
                     Err := none, Ctx := ctx }

/-- `Info` on the root logger. -/
def EctoLogger.Info (l : EctoLogger) (msg : String) : M Unit :=
  invoke l.logFunc { Level := "info", Message := msg, Fields := ∅, Err := none, Ctx := none }

/-- `Infof` on the root logger. -/
def EctoLogger.Infof (l : EctoLogger) (format : String) (args : List Value) : M Unit :=
  invoke l.logFunc { Level := "info", Message := Sprintf format args, Fields := ∅,
                     Err := none, Ctx := none }

/-- `InfoContext` on the root logger. -/
def EctoLogger.InfoContext (l : EctoLogger) (ctx : Option GoContext) (msg : String) : M Unit :=
  invoke l.logFunc { Level := "info", Message := msg, Fields := ∅, Err := none, Ctx := ctx }

/-- `InfoContextf` on the root logger. -/
def EctoLogger.InfoContextf (l : EctoLogger) (ctx : Option GoContext) (format : String)
    (args : List Value) : M Unit :=
  invoke l.logFunc { Level := "info", Message := Sprintf format args, Fields := ∅,
                     Err := none, Ctx := ctx }

/-- `Warn` on the root logger. -/
def EctoLogger.Warn (l : EctoLogger) (msg : String) : M Unit :=
  invoke l.logFunc { Level := "warn", Message := msg, Fields := ∅, Err := none, Ctx := none }

/-- `Warnf` on the root logger. -/
def EctoLogger.Warnf (l : EctoLogger) (format : String) (args : List Value) : M Unit :=
  invoke l.logFunc { Level := "warn", Message := Sprintf format args, Fields := ∅,
                     Err := none, Ctx := none }

/-- `WarnContext` on the root logger. -/
def EctoLogger.WarnContext (l : EctoLogger) (ctx : Option GoContext) (msg : String) : M Unit :=
  invoke l.logFunc { Level := "warn", Message := msg, Fields := ∅, Err := none, Ctx := ctx }

/-- `WarnContextf` on the root logger. -/
def EctoLogger.WarnContextf (l : EctoLogger) (ctx : Option GoContext) (format : String)
    (args : List Value) : M Unit :=
  invoke l.logFunc { Level := "warn", Message := Sprintf format args, Fields := ∅,
                     Err := none, Ctx := ctx }

/-- `Error` on the root logger. -/
def EctoLogger.Error (l : EctoLogger) (msg : String) : M Unit :=
  invoke l.logFunc { Level := "error", Message := msg, Fields := ∅, Err := none, Ctx := none }

/-- `Errorf` on the root logger. -/
def EctoLogger.Errorf (l : EctoLogger) (format : String) (args : List Value) : M Unit :=
  invoke l.logFunc { Level := "error", Message := Sprintf format args, Fields := ∅,
                     Err := none, Ctx := none }

/-- `ErrorContext` on the root logger. -/
def EctoLogger.ErrorContext (l : EctoLogger) (ctx : Option GoContext) (msg : String) : M Unit :=
  invoke l.logFunc { Level := "error", Message := msg, Fields := ∅, Err := none, Ctx := ctx }

/-- `ErrorContextf` on the root logger. -/
def EctoLogger.ErrorContextf (l : EctoLogger) (ctx : Option GoContext) (format : String)
    (args : List Value) : M Unit :=
  invoke l.logFunc { Level := "error", Message := Sprintf format args, Fields := ∅,
                     Err := none, Ctx := ctx }

/-- `Fatal` on the root logger. -/
def EctoLogger.Fatal (l : EctoLogger) (msg : String) : M Unit :=
  invoke l.logFunc { Level := "fatal", Message := msg, Fields := ∅, Err := none, Ctx := none }

/-- `Fatalf` on the root logger. -/
def EctoLogger.Fatalf (l : EctoLogger) (format : String) (args : List Value) : M Unit :=
  invoke l.logFunc { Level := "fatal", Message := Sprintf format args, Fields := ∅,
                     Err := none, Ctx := none }

/-- `FatalContext` on the root logger. -/
def EctoLogger.FatalContext (l : EctoLogger) (ctx : Option GoContext) (msg : String) : M Unit :=
  invoke l.logFunc { Level := "fatal", Message := msg, Fields := ∅, Err := none, Ctx := ctx }

/-- `FatalContextf` on the root logger. -/
def EctoLogger.FatalContextf (l : EctoLogger) (ctx : Option GoContext) (format : String)
    (args : List Value) : M Unit :=
  invoke l.logFunc { Level := "fatal", Message := Sprintf format args, Fields := ∅,
                     Err := none, Ctx := ctx }

/-! ## The derived logger (`logger.go`, `ectoSubLogger`) -/

/-- `WithFields` on a derived logger: `l.fields = Merge(l.fields, fields); return l`. -/
def ectoSubLogger.WithFields (l : Ptr) (fields : FieldMap) : M Logger := do
  let s ← load l
  store l { s with fields := Merge s.fields fields }
  return Logger.sub l

/-- `WithField` on a derived logger: merge the one-entry map, return `l`. -/
def ectoSubLogger.WithField (l : Ptr) (key : String) (value : Value) : M Logger := do
  let s ← load l
  store l { s with fields := Merge s.fields (AList.singleton key value) }
  return Logger.sub l

/-- `WithContext` on a derived logger: `l.ctx = ctx; return l`. -/
def ectoSubLogger.WithContext (l : Ptr) (ctx : Option GoContext) : M Logger := do
  let s ← load l
  store l { s with ctx := ctx }
  return Logger.sub l

/-- `WithError` on a derived logger: `l.err = err; return l`. -/
def ectoSubLogger.WithError (l : Ptr) (err : Option GoError) : M Logger := do
  let s ← load l
  store l { s with err := err }
  return Logger.sub l

/-- `Debug` on a derived logger. -/
def ectoSubLogger.Debug (l : Ptr) (msg : String) : M Unit := do
  let s ← load l
  invoke s.logFunc { Level := "debug", Message := msg, Fields := s.fields, Err := s.err,
                     Ctx := s.ctx }

/-- `Debugf` on a derived logger. -/
def ectoSubLogger.Debugf (l : Ptr) (format : String) (args : List Value) : M Unit := do
  let s ← load l
  invoke s.logFunc { Level := "debug", Message := Sprintf format args, Fields := s.fields,
                     Err := s.err, Ctx := s.ctx }

/-- `DebugContext` on a derived logger. -/
def ectoSubLogger.DebugContext (l : Ptr) (ctx : Option GoContext) (msg : String) : M Unit := do
  let s ← load l
  invoke s.logFunc { Level := "debug", Message := msg, Fields := s.fields, Err := s.err,
                     Ctx := ctx }

/-- `DebugContextf` on a derived logger. -/
def ectoSubLogger.DebugContextf (l : Ptr) (ctx : Option GoContext) (format : String)
    (args : List Value) : M Unit := do
  let s ← load l
  invoke s.logFunc { Level := "debug", Message := Sprintf format args, Fields := s.fields,
                     Err := s.err, Ctx := ctx }

/-- `Info` on a derived logger. -/
def ectoSubLogger.Info (l : Ptr) (msg : String) : M Unit := do
  let s ← load l
  invoke s.logFunc { Level := "info", Message := msg, Fields := s.fields, Err := s.err,
                     Ctx := s.ctx }

/-- `Infof` on a derived logger. -/
def ectoSubLogger.Infof (l : Ptr) (format : String) (args : List Value) : M Unit := do
  let s ← load l
  invoke s.logFunc { Level := "info", Message := Sprintf format args, Fields := s.fields,
                     Err := s.err, Ctx := s.ctx }

/-- `InfoContext` on a derived logger. -/
def ectoSubLogger.InfoContext (l : Ptr) (ctx : Option GoContext) (msg : String) : M Unit := do
  let s ← load l
  invoke s.logFunc { Level := "info", Message := msg, Fields := s.fields, Err := s.err,
                     Ctx := ctx }

/-- `InfoContextf` on a derived logger. -/
def ectoSubLogger.InfoContextf (l : Ptr) (ctx : Option GoContext) (format : String)
    (args : List Value) : M Unit := do
  let s ← load l
  invoke s.logFunc { Level := "info", Message := Sprintf format args, Fields := s.fields,
                     Err := s.err, Ctx := ctx }

/-- `Warn` on a derived logger. -/
def ectoSubLogger.Warn (l : Ptr) (msg : String) : M Unit := do
  let s ← load l
  invoke s.logFunc { Level := "warn", Message := msg, Fields := s.fields, Err := s.err,
                     Ctx := s.ctx }

/-- `Warnf` on a derived logger. -/
def ectoSubLogger.Warnf (l : Ptr) (format : String) (args : List Value) : M Unit := do
  let s ← load l
  invoke s.logFunc { Level := "warn", Message := Sprintf format args, Fields := s.fields,
                     Err := s.err, Ctx := s.ctx }

/-- `WarnContext` on a derived logger. -/
def ectoSubLogger.WarnContext (l : Ptr) (ctx : Option GoContext) (msg : String) : M Unit := do
  let s ← load l
  invoke s.logFunc { Level := "warn", Message := msg, Fields := s.fields, Err := s.err,
                     Ctx := ctx }

/-- `WarnContextf` on a derived logger. -/
def ectoSubLogger.WarnContextf (l : Ptr) (ctx : Option GoContext) (format : String)
    (args : List Value) : M Unit := do
  let s ← load l
  invoke s.logFunc { Level := "warn", Message := Sprintf format args, Fields := s.fields,
                     Err := s.err, Ctx := ctx }

/-- `Error` on a derived logger. -/
def ectoSubLogger.Error (l : Ptr) (msg : String) : M Unit := do
  let s ← load l
  invoke s.logFunc { Level := "error", Message := msg, Fields := s.fields, Err := s.err,
                     Ctx := s.ctx }

/-- `Errorf` on a derived logger. -/
def ectoSubLogger.Errorf (l : Ptr) (format : String) (args : List Value) : M Unit := do
  let s ← load l
  invoke s.logFunc { Level := "error", Message := Sprintf format args, Fields := s.fields,
                     Err := s.err, Ctx := s.ctx }

/-- `ErrorContext` on a derived logger. -/
def ectoSubLogger.ErrorContext (l : Ptr) (ctx : Option GoContext) (msg : String) : M Unit := do
  let s ← load l
  invoke s.logFunc { Level := "error", Message := msg, Fields := s.fields, Err := s.err,
                     Ctx := ctx }

/-- `ErrorContextf` on a derived logger. -/
def ectoSubLogger.ErrorContextf (l : Ptr) (ctx : Option GoContext) (format : String)
    (args : List Value) : M Unit := do
  let s ← load l
  invoke s.logFunc { Level := "error", Message := Sprintf format args, Fields := s.fields,
                     Err := s.err, Ctx := ctx }

/-- `Fatal` on a derived logger. -/
def ectoSubLogger.Fatal (l : Ptr) (msg : String) : M Unit := do
  let s ← load l
  invoke s.logFunc { Level := "fatal", Message := msg, Fields := s.fields, Err := s.err,
                     Ctx := s.ctx }

/-- `Fatalf` on a derived logger. -/
def ectoSubLogger.Fatalf (l : Ptr) (format : String) (args : List Value) : M Unit := do
  let s ← load l
  invoke s.logFunc { Level := "fatal", Message := Sprintf format args, Fields := s.fields,
                     Err := s.err, Ctx := s.ctx }

/-- `FatalContext` on a derived logger. -/
def ectoSubLogger.FatalContext (l : Ptr) (ctx : Option GoContext) (msg : String) : M Unit := do
  let s ← load l
  invoke s.logFunc { Level := "fatal", Message := msg, Fields := s.fields, Err := s.err,
                     Ctx := ctx }

/-- `FatalContextf` on a derived logger. -/
def ectoSubLogger.FatalContextf (l : Ptr) (ctx : Option GoContext) (format : String)
    (args : List Value) : M Unit := do
  let s ← load l
  invoke s.logFunc { Level := "fatal", Message := Sprintf format args, Fields := s.fields,
                     Err := s.err, Ctx := ctx }

/-! ## The interface `Logger` (`interface.go`): dynamic dispatch -/

/-- `WithFields` through the interface. -/
def Logger.WithFields : Logger → FieldMap → M Logger
  | .root l, fields => l.WithFields fields
  | .sub l, fields => ectoSubLogger.WithFields l fields

/-- `WithField` through the interface. -/
def Logger.WithField : Logger → String → Value → M Logger
  | .root l, key, value => l.WithField key value
  | .sub l, key, value => ectoSubLogger.WithField l key value

/-- `WithContext` through the interface. -/
def Logger.WithContext : Logger → Option GoContext → M Logger
  | .root l, ctx => l.WithContext ctx
  | .sub l, ctx => ectoSubLogger.WithContext l ctx

/-- `WithError` through the interface. -/
def Logger.WithError : Logger → Option GoError → M Logger
  | .root l, err => l.WithError err
  | .sub l, err => ectoSubLogger.WithError l err

/-- `Debug` through the interface. -/
def Logger.Debug : Logger → String → M Unit
  | .root l, msg => l.Debug msg
  | .sub l, msg => ectoSubLogger.Debug l msg

/-- `Debugf` through the interface. -/
def Logger.Debugf : Logger → String → List Value → M Unit
  | .root l, format, args => l.Debugf Sprintf format args
  | .sub l, format, args => ectoSubLogger.Debugf Sprintf l format args

/-- `DebugContext` through the interface. -/
def Logger.DebugContext : Logger → Option GoContext → String → M Unit
  | .root l, ctx, msg => l.DebugContext ctx msg
  | .sub l, ctx, msg => ectoSubLogger.DebugContext l ctx msg

/-- `DebugContextf` through the interface. -/
def Logger.DebugContextf : Logger → Option GoContext → String → List Value → M Unit
  | .root l, ctx, format, args => l.DebugContextf Sprintf ctx format args
  | .sub l, ctx, format, args => ectoSubLogger.DebugContextf Sprintf l ctx format args

/-- `Info` through the interface. -/
def Logger.Info : Logger → String → M Unit
  | .root l, msg => l.Info msg
  | .sub l, msg => ectoSubLogger.Info l msg

/-- `Infof` through the interface. -/
def Logger.Infof : Logger → String → List Value → M Unit
  | .root l, format, args => l.Infof Sprintf format args
  | .sub l, format, args => ectoSubLogger.Infof Sprintf l format args

/-- `InfoContext` through the interface. -/
def Logger.InfoContext : Logger → Option GoContext → String → M Unit
  | .root l, ctx, msg => l.InfoContext ctx msg
  | .sub l, ctx, msg => ectoSubLogger.InfoContext l ctx msg

/-- `InfoContextf` through the interface. -/
def Logger.InfoContextf : Logger → Option GoContext → String → List Value → M Unit
  | .root l, ctx, format, args => l.InfoContextf Sprintf ctx format args
  | .sub l, ctx, format, args => ectoSubLogger.InfoContextf Sprintf l ctx format args

/-- `Warn` through the interface. -/
def Logger.Warn : Logger → String → M Unit
  | .root l, msg => l.Warn msg
  | .sub l, msg => ectoSubLogger.Warn l msg

/-- `Warnf` through the interface. -/
def Logger.Warnf : Logger → String → List Value → M Unit
  | .root l, format, args => l.Warnf Sprintf format args
  | .sub l, format, args => ectoSubLogger.Warnf Sprintf l format args

/-- `WarnContext` through the interface. -/
def Logger.WarnContext : Logger → Option GoContext → String → M Unit
  | .root l, ctx, msg => l.WarnContext ctx msg
  | .sub l, ctx, msg => ectoSubLogger.WarnContext l ctx msg

/-- `WarnContextf` through the interface. -/
def Logger.WarnContextf : Logger → Option GoContext → String → List Value → M Unit
  | .root l, ctx, format, args => l.WarnContextf Sprintf ctx format args
  | .sub l, ctx, format, args => ectoSubLogger.WarnContextf Sprintf l ctx format args

/-- `Error` through the interface. -/
def Logger.Error : Logger → String → M Unit
  | .root l, msg => l.Error msg
  | .sub l, msg => ectoSubLogger.Error l msg

/-- `Errorf` through the interface. -/
def Logger.Errorf : Logger → String → List Value → M Unit
  | .root l, format, args => l.Errorf Sprintf format args
  | .sub l, format, args => ectoSubLogger.Errorf Sprintf l format args

/-- `ErrorContext` through the interface. -/
def Logger.ErrorContext : Logger → Option GoContext → String → M Unit
  | .root l, ctx, msg => l.ErrorContext ctx msg
  | .sub l, ctx, msg => ectoSubLogger.ErrorContext l ctx msg

/-- `ErrorContextf` through the interface. -/
def Logger.ErrorContextf : Logger → Option GoContext → String → List Value → M Unit
  | .root l, ctx, format, args => l.ErrorContextf Sprintf ctx format args
  | .sub l, ctx, format, args => ectoSubLogger.ErrorContextf Sprintf l ctx format args

/-- `Fatal` through the interface. -/
def Logger.Fatal : Logger → String → M Unit
  | .root l, msg => l.Fatal msg
  | .sub l, msg => ectoSubLogger.Fatal l msg

/-- `Fatalf` through the interface. -/
def Logger.Fatalf : Logger → String → List Value → M Unit
  | .root l, format, args => l.Fatalf Sprintf format args
  | .sub l, format, args => ectoSubLogger.Fatalf Sprintf l format args

/-- `FatalContext` through the interface. -/
def Logger.FatalContext : Logger → Option GoContext → String → M Unit
  | .root l, ctx, msg => l.FatalContext ctx msg
  | .sub l, ctx, msg => ectoSubLogger.FatalContext l ctx msg

/-- `FatalContextf` through the interface. -/
def Logger.FatalContextf : Logger → Option GoContext → String → List Value → M Unit
  | .root l, ctx, format, args => l.FatalContextf Sprintf ctx format args
  | .sub l, ctx, format, args => ectoSubLogger.FatalContextf Sprintf l ctx format args

/-! ## Selecting an entry point by severity -/

/-- The five severities, one per family of entry points. -/
inductive Severity where
  | debug | info | warn | error | fatal
deriving DecidableEq, Repr

/-- The level string of a severity. -/
def Severity.name : Severity → String
  | .debug => "debug"
  | .info => "info"
  | .warn => "warn"
  | .error => "error"
  | .fatal => "fatal"

/-- The plain entry point `<Level>(msg)` of severity `S`. -/
def Logger.plain (S : Severity) (l : Logger) (msg : String) : M Unit :=
  match S with
  | .debug => l.Debug msg
  | .info => l.Info msg
  | .warn => l.Warn msg
  | .error => l.Error msg
  | .fatal => l.Fatal msg

/-- The entry point `<Level>f(format, args...)` of severity `S`. -/
def Logger.plainf (S : Severity) (l : Logger) (format : String) (args : List Value) : M Unit :=
  match S with
  | .debug => l.Debugf Sprintf format args
  | .info => l.Infof Sprintf format args
  | .warn => l.Warnf Sprintf format args
  | .error => l.Errorf Sprintf format args
  | .fatal => l.Fatalf Sprintf format args

/-- The entry point `<Level>Context(ctx, msg)` of severity `S`. -/
def Logger.context (S : Severity) (l : Logger) (ctx : Option GoContext) (msg : String) :
    M Unit :=
  match S with
  | .debug => l.DebugContext ctx msg
  | .info => l.InfoContext ctx msg
  | .warn => l.WarnContext ctx msg
  | .error => l.ErrorContext ctx msg
  | .fatal => l.FatalContext ctx msg

/-- The entry point `<Level>Contextf(ctx, format, args...)` of severity `S`. -/
def Logger.contextf (S : Severity) (l : Logger) (ctx : Option GoContext) (format : String)
    (args : List Value) : M Unit :=
  match S with
  | .debug => l.DebugContextf Sprintf ctx format args
  | .info => l.InfoContextf Sprintf ctx format args
  | .warn => l.WarnContextf Sprintf ctx format args
  | .error => l.ErrorContextf Sprintf ctx format args
  | .fatal => l.FatalContextf Sprintf ctx format args

end Facade

/-! ## Go standard library used by the default console backend

`DefaultEctoLogFunc` calls `time.Now`, `json.Marshal` and `log.Print`. Their
behaviour is fixed by the Go standard library, not by this repository; the
definitions below follow its documentation for the values the model admits.
Text is handled as lists of characters, named by their code points. -/

/-- A wall-clock reading with the zone offset in minutes east of UTC. -/
structure Time where
  year : Nat
  month : Nat
  day : Nat
  hour : Nat
  minute : Nat
  second : Nat
  offset : Int
deriving DecidableEq, Repr

/-- The two readings one call of `DefaultEctoLogFunc` causes: `time.Now()` in
its body, and the reading the standard logger makes for the line header. -/
structure Clock where
  now : Time
  logNow : Time
deriving DecidableEq, Repr

/-- Decimal digits of `n`, zero-padded on the left to at least `width`. -/
def padded (width n : Nat) : List Char :=
  let ds := Nat.toDigits 10 n
  List.replicate (width - ds.length) (Char.ofNat 48) ++ ds

/-- The zone suffix of `time.RFC3339`: `Z` for UTC, otherwise `+hh:mm` or `-hh:mm`. -/
def zoneSuffix (offset : Int) : List Char :=
  if offset = 0 then [Char.ofNat 90]
  else
    let m := offset.natAbs
    (if offset < 0 then Char.ofNat 45 else Char.ofNat 43) ::
      (padded 2 (m / 60) ++ Char.ofNat 58 :: padded 2 (m % 60))

/-- The text of `t.Format(time.RFC3339)`, layout `2006-01-02T15:04:05Z07:00`. -/
def Time.rfc3339 (t : Time) : String :=
  String.mk (padded 4 t.year ++ Char.ofNat 45 :: padded 2 t.month ++ Char.ofNat 45 ::
    padded 2 t.day ++ Char.ofNat 84 :: padded 2 t.hour ++ Char.ofNat 58 ::
    padded 2 t.minute ++ Char.ofNat 58 :: padded 2 t.second ++ zoneSuffix t.offset)

/-- The header the standard logger puts before each line. The package-level
logger of `log` is created with the flags `LstdFlags` (date and time) and an
empty prefix, and nothing in the repository changes them: the header is
`2006/01/02 15:04:05` followed by a blank. -/
def Time.logHeader (t : Time) : List Char :=
  padded 4 t.year ++ Char.ofNat 47 :: padded 2 t.month ++ Char.ofNat 47 :: padded 2 t.day ++
    Char.ofNat 32 :: padded 2 t.hour ++ Char.ofNat 58 :: padded 2 t.minute ++ Char.ofNat 58 ::
    padded 2 t.second ++ [Char.ofNat 32]

/-- One `log.Print(s)` or `log.Printf` whose formatted text is `s`: the text
handed to the logger's writer in a single `Write`, which is the header, `s`,
and a newline when `s` does not end in one. -/
def logPrint (t : Time) (s : List Char) : String :=
  String.mk (t.logHeader ++ s ++
    (if s.getLast? = some (Char.ofNat 10) then [] else [Char.ofNat 10]))

/-- Lower-case hexadecimal digit of `n < 16`. -/
def hexDigit (n : Nat) : Char :=
  if n < 10 then Char.ofNat (48 + n) else Char.ofNat (87 + n)

/-- How `json.Marshal` writes one character of a string: the quote and the
backslash behind a backslash, the short escapes for backspace, form feed,
newline, return and tab, a six-character unicode escape for the other control
characters, for the three characters `<`, `>`, `&` and for the line
separators U+2028 and U+2029, and the character itself otherwise. -/
def escapeChar (c : Char) : List Char :=
  let n := c.toNat
  if n = 34 ∨ n = 92 then [Char.ofNat 92, c]
  else if n = 8 then [Char.ofNat 92, Char.ofNat 98]
  else if n = 12 then [Char.ofNat 92, Char.ofNat 102]
  else if n = 10 then [Char.ofNat 92, Char.ofNat 110]
  else if n = 13 then [Char.ofNat 92, Char.ofNat 114]
  else if n = 9 then [Char.ofNat 92, Char.ofNat 116]
  else if n < 32 ∨ n = 60 ∨ n = 62 ∨ n = 38 then
    [Char.ofNat 92, Char.ofNat 117, Char.ofNat 48, Char.ofNat 48, hexDigit (n / 16),
      hexDigit (n % 16)]
  else if n = 8232 ∨ n = 8233 then
    [Char.ofNat 92, Char.ofNat 117, Char.ofNat 50, Char.ofNat 48, Char.ofNat 50,
      hexDigit (n % 16)]
  else [c]

/-- A string as `json.Marshal` writes it: quoted, each character escaped. -/
def encodeString (s : String) : List Char :=
  Char.ofNat 34 :: (s.data.flatMap escapeChar ++ [Char.ofNat 34])

/-- One value as `json.Marshal` writes it, or the error it returns. An error
built by `errors.New` is a pointer to a struct without exported fields, which
is written as the empty object. -/
def encodeValue : Value → Except String (List Char)
  | .nil => .ok "null".data
  | .bool b => .ok (if b then "true".data else "false".data)
  | .int n => .ok (toString n).data
  | .str s => .ok (encodeString s)
  | .error _ => .ok [Char.ofNat 123, Char.ofNat 125]
  | .unsupported typeName => .error ("json: unsupported type: " ++ typeName)

/-- Strict order of strings by code points, the order in which `json.Marshal`
writes the keys of a map. -/
def keyLt : List Char → List Char → Bool
  | [], [] => false
  | [], _ :: _ => true
  | _ :: _, [] => false
  | a :: as, b :: bs => a.toNat < b.toNat || (a.toNat == b.toNat && keyLt as bs)

/-- Insert an entry into a list of entries ordered by key. -/
def insertByKey (kv : String × Value) : List (String × Value) → List (String × Value)
  | [] => [kv]
  | x :: xs => if keyLt x.1.data kv.1.data then x :: insertByKey kv xs else kv :: x :: xs

/-- The entries of a map ordered by key. -/
def sortedEntries (m : FieldMap) : List (String × Value) :=
  (m.entries.map (fun e => (e.1, e.2))).foldr insertByKey []

/-- The members of an object as `json.Marshal` writes them, comma-separated. -/
def encodeMembers : List (String × Value) → Except String (List Char)
  | [] => .ok []
  | (k, v) :: rest =>
    match encodeValue v with
    | .error e => .error e
    | .ok ev =>
      match rest, encodeMembers rest with
      | _, .error e => .error e
      | [], .ok _ => .ok (encodeString k ++ Char.ofNat 58 :: ev)
      | _ :: _, .ok er => .ok (encodeString k ++ Char.ofNat 58 :: ev ++ Char.ofNat 44 :: er)

/-- The text `json.Marshal` returns for a `map[string]interface{}`: one
object, keys in order, no blanks; or its error. -/
def jsonMarshal (m : FieldMap) : Except String (List Char) :=
  match encodeMembers (sortedEntries m) with
  | .error e => .error e
  | .ok body => .ok (Char.ofNat 123 :: (body ++ [Char.ofNat 125]))

/-! ### Reading JSON back (`json.Unmarshal`) -/

/-- A JSON document. Numbers keep their literal text. -/
inductive Json where
  | null
  | bool (b : Bool)
  | num (literal : String)
  | str (s : String)
  | arr (items : List Json)
  | obj (members : List (String × Json))

/-- JSON white space: blank, tab, newline, carriage return. -/
def isWs (c : Char) : Bool :=
  c.toNat == 32 || c.toNat == 9 || c.toNat == 10 || c.toNat == 13

/-- Drop leading white space. -/
def skipWs : List Char → List Char
  | [] => []
  | c :: cs => if isWs c then skipWs cs else c :: cs

/-- Decimal digit test. -/
def isDigit (c : Char) : Bool := 48 ≤ c.toNat && c.toNat ≤ 57

/-- Value of a hexadecimal digit. -/
def hexVal (c : Char) : Option Nat :=
  let n := c.toNat
  if 48 ≤ n ∧ n ≤ 57 then some (n - 48)
  else if 97 ≤ n ∧ n ≤ 102 then some (n - 87)
  else if 65 ≤ n ∧ n ≤ 70 then some (n - 55)
  else none

/-- Value of four hexadecimal digits. -/
def hex4 (a b c d : Char) : Option Nat :=
  match hexVal a, hexVal b, hexVal c, hexVal d with
  | some x, some y, some z, some u => some (((x * 16 + y) * 16 + z) * 16 + u)
  | _, _, _, _ => none

/-- Split off the leading decimal digits. -/
def takeDigits : List Char → List Char × List Char
  | [] => ([], [])
  | c :: cs =>
    if isDigit c then
      let r := takeDigits cs
      (c :: r.1, r.2)
    else ([], c :: cs)

/-- One unit of a decoded string literal: a character written as itself or by
a short escape, or the value of a `\uXXXX` escape (a UTF-16 code unit). -/
inductive StrUnit where
  | ch (c : Char)
  | esc (n : Nat)

/-- The character a lone `\uXXXX` escape with value `n` stands for; a
surrogate half on its own is read as U+FFFD. -/
def escapedChar (n : Nat) : Char :=
  if 55296 ≤ n ∧ n ≤ 57343 then Char.ofNat 65533 else Char.ofNat n

/-- The characters of a string literal from its units. `pending` is a high
surrogate escape still waiting for its low half: directly followed by a low
surrogate escape the two stand for one character, otherwise it is read as
U+FFFD. -/
def decodeUnits : Option Nat → List StrUnit → List Char
  | none, [] => []
  | some _, [] => [Char.ofNat 65533]
  | none, .ch c :: rest => c :: decodeUnits none rest
  | some _, .ch c :: rest => Char.ofNat 65533 :: c :: decodeUnits none rest
  | none, .esc n :: rest =>
    if 55296 ≤ n ∧ n ≤ 56319 then decodeUnits (some n) rest
    else escapedChar n :: decodeUnits none rest
  | some hi, .esc n :: rest =>
    if 56320 ≤ n ∧ n ≤ 57343 then
      Char.ofNat (65536 + (hi - 55296) * 1024 + (n - 56320)) :: decodeUnits none rest
    else if 55296 ≤ n ∧ n ≤ 56319 then Char.ofNat 65533 :: decodeUnits (some n) rest
    else Char.ofNat 65533 :: escapedChar n :: decodeUnits none rest

/-- The rest of a string literal after its opening quote: the decoded text
(its units collected in reverse in `acc`) and what follows the closing quote.
A raw control character, an unknown escape or a missing closing quote is an
error. -/
def parseStringBody : List StrUnit → List Char → Option (String × List Char)
  | _, [] => none
  | acc, c :: cs =>
    if c.toNat = 34 then some (String.mk (decodeUnits none acc.reverse), cs)
    else if c.toNat = 92 then
      match cs with
      | [] => none
      | e :: rest =>
        if e.toNat = 34 ∨ e.toNat = 92 ∨ e.toNat = 47 then
          parseStringBody (StrUnit.ch e :: acc) rest
        else if e.toNat = 98 then parseStringBody (StrUnit.ch (Char.ofNat 8) :: acc) rest
        else if e.toNat = 102 then parseStringBody (StrUnit.ch (Char.ofNat 12) :: acc) rest
        else if e.toNat = 110 then parseStringBody (StrUnit.ch (Char.ofNat 10) :: acc) rest
        else if e.toNat = 114 then parseStringBody (StrUnit.ch (Char.ofNat 13) :: acc) rest
        else if e.toNat = 116 then parseStringBody (StrUnit.ch (Char.ofNat 9) :: acc) rest
        else if e.toNat = 117 then
          match rest with
          | a :: b :: c' :: d :: rest' =>
            match hex4 a b c' d with
            | some n => parseStringBody (StrUnit.esc n :: acc) rest'
            | none => none
          | _ => none
        else none
    else if c.toNat < 32 then none
    else parseStringBody (StrUnit.ch c :: acc) cs

/-- A number literal: optional minus, integer part without a superfluous
leading zero, optional fraction, optional exponent. -/
def parseNumber (cs : List Char) : Option (String × List Char) :=
  let signed : List Char × List Char :=
    match cs with
    | c :: rest => if c.toNat = 45 then ([c], rest) else ([], cs)
    | [] => ([], [])
  let ip := takeDigits signed.2
  match ip.1 with
  | [] => none
  | d :: more =>
    if d.toNat = 48 ∧ more ≠ [] then
      some (String.mk (signed.1 ++ [d]), more ++ ip.2)
    else
      let fraction : Option (List Char × List Char) :=
        match ip.2 with
        | dot :: r =>
          if dot.toNat = 46 then
            match takeDigits r with
            | ([], _) => none
            | (fs, r') => some (dot :: fs, r')
          else some ([], ip.2)
        | [] => some ([], [])
      match fraction with
      | none => none
      | some (fs, r1) =>
        match r1 with
        | e :: r2 =>
          if e.toNat = 101 ∨ e.toNat = 69 then
            let sg : List Char × List Char :=
              match r2 with
              | s :: r3 => if s.toNat = 43 ∨ s.toNat = 45 then ([s], r3) else ([], r2)
              | [] => ([], [])
            match takeDigits sg.2 with
            | ([], _) => none
            | (es, r4) => some (String.mk (signed.1 ++ ip.1 ++ fs ++ e :: sg.1 ++ es), r4)
          else some (String.mk (signed.1 ++ ip.1 ++ fs), r1)
        | [] => some (String.mk (signed.1 ++ ip.1 ++ fs), [])

/-- Strip the characters of `word` from the front of the input. -/
def expectWord : List Char → List Char → Option (List Char)
  | [], cs => some cs
  | _ :: _, [] => none
  | w :: ws, c :: cs => if w = c then expectWord ws cs else none

mutual
/-- One JSON value and the input left after it; `fuel` bounds the nesting and
the number of members read. -/
def parseValue : Nat → List Char → Option (Json × List Char)
  | 0, _ => none
  | fuel + 1, cs =>
    match skipWs cs with
    | [] => none
    | c :: rest =>
      if c.toNat = 123 then
        match skipWs rest with
        | c' :: rest' =>
          if c'.toNat = 125 then some (Json.obj [], rest')
          else parseMembers fuel (c' :: rest') []
        | [] => none
      else if c.toNat = 91 then
        match skipWs rest with
        | c' :: rest' =>
          if c'.toNat = 93 then some (Json.arr [], rest')
          else parseItems fuel (c' :: rest') []
        | [] => none
      else if c.toNat = 34 then
        match parseStringBody [] rest with
        | some (s, r) => some (Json.str s, r)
        | none => none
      else if c.toNat = 116 then
        (expectWord "true".data (c :: rest)).map (fun r => (Json.bool true, r))
      else if c.toNat = 102 then
        (expectWord "false".data (c :: rest)).map (fun r => (Json.bool false, r))
      else if c.toNat = 110 then
        (expectWord "null".data (c :: rest)).map (fun r => (Json.null, r))
      else
        match parseNumber (c :: rest) with
        | some (n, r) => some (Json.num n, r)
        | none => none
/-- The members of an object after its opening brace, up to the closing one. -/
def parseMembers : Nat → List Char → List (String × Json) → Option (Json × List Char)
  | 0, _, _ => none
  | fuel + 1, cs, acc =>
    match skipWs cs with
    | c :: rest =>
      if c.toNat = 34 then
        match parseStringBody [] rest with
        | some (k, r) =>
          match skipWs r with
          | colon :: r1 =>
            if colon.toNat = 58 then
              match parseValue fuel r1 with
              | some (v, r2) =>
                match skipWs r2 with
                | sep :: r3 =>
                  if sep.toNat = 44 then parseMembers fuel r3 (acc ++ [(k, v)])
                  else if sep.toNat = 125 then some (Json.obj (acc ++ [(k, v)]), r3)
                  else none
                | [] => none
              | none => none
            else none
          | [] => none
        | none => none
      else none
    | [] => none
/-- The items of an array after its opening bracket, up to the closing one. -/
def parseItems : Nat → List Char → List Json → Option (Json × List Char)
  | 0, _, _ => none
  | fuel + 1, cs, acc =>
    match parseValue fuel cs with
    | some (v, r) =>
      match skipWs r with
      | sep :: r1 =>
        if sep.toNat = 44 then parseItems fuel r1 (acc ++ [v])
        else if sep.toNat = 93 then some (Json.arr (acc ++ [v]), r1)
        else none
      | [] => none
    | none => none
end

/-- A whole text read as one JSON value, with nothing but white space after
it, using at most `fuel` nested steps. -/
def parseDocument (fuel : Nat) (data : List Char) : Option Json :=
  match parseValue fuel data with
  | some (v, rest) => if skipWs rest = [] then some v else none
  | none => none

/-- The document `json.Unmarshal` reads from `data`, if `data` is valid JSON.
The fuel exceeds the number of steps any text of this length can need. -/
def jsonUnmarshal (data : String) : Option Json :=
  parseDocument (data.length + 1) data.data

/-- The value of a key in a decoded object; of a repeated key the last one. -/
def Json.get? : Json → String → Option Json
  | .obj members, key => (members.reverse.find? (fun kv => kv.1 == key)).map Prod.snd
  | _, _ => none

/-- The text of a JSON string. -/
def Json.str? : Json → Option String
  | .str s => some s
  | _ => none

/-- Whether a JSON value is an object with no member. -/
def Json.isEmptyObject : Json → Bool
  | .obj [] => true
  | _ => false

/-! ## The default console backend (`logger.go`, `DefaultEctoLogFunc`) -/

/-- An `error` stored in an `interface{}`: nil stays nil. -/
def errorValue : Option GoError → Value
  | none => Value.nil
  | some e => Value.error e

/-- The map `jsonMsg` that `DefaultEctoLogFunc` hands to `json.Marshal`, with
`now` the text of `time.Now().Format(time.RFC3339)`. -/
def DefaultEctoLogFunc.jsonMsg (now : String) (msg : EctoLogMessage) : FieldMap :=
  let jsonMsg : FieldMap := ∅
  let jsonMsg := jsonMsg.insert "level" (Value.str msg.Level)
  let jsonMsg := jsonMsg.insert "message" (Value.str msg.Message)
  let jsonMsg := jsonMsg.insert "err" (errorValue msg.Err)
  let jsonMsg := jsonMsg.insert "time" (Value.str now)
  Merge jsonMsg msg.Fields

/-- `DefaultEctoLogFunc`: the text it writes to the output of the standard
logger. On a marshalling error it prints the diagnostic and returns. -/
def DefaultEctoLogFunc (clock : Clock) (msg : EctoLogMessage) : String :=
  match jsonMarshal (DefaultEctoLogFunc.jsonMsg clock.now.rfc3339 msg) with
  | .error err =>
    logPrint clock.logNow ("Error marshalling log message to JSON: ".data ++ err.data)
  | .ok json => logPrint clock.logNow json

/-- The message of `TestDefaultEctoLogFunc`, with `context.Background()` as
context `1`. -/
def testMessage : EctoLogMessage :=
  { Level := "info", Message := "test message",
    Fields := AList.singleton "key" (Value.str "value"), Ctx := some 1,
    Err := some { text := "test error" } }

/-- A clock reading: 1 May 2024, 10:00:00 UTC, for both readings. -/
def sampleClock : Clock :=
  { now := { year := 2024, month := 5, day := 1, hour := 10, minute := 0, second := 0,
             offset := 0 },
    logNow := { year := 2024, month := 5, day := 1, hour := 10, minute := 0, second := 0,
                offset := 0 } }

/-! ## Observations used to state the properties -/

/-- What a logger carries: the struct of a derived logger, and for a root
logger its callback with no fields, no context and no error. It is defined
exactly when the logger can be used in the world. -/
def Logger.carried (w : World) : Logger → Option ectoSubLogger
  | .root l => some { logFunc := l.logFunc, fields := ∅, err := none, ctx := none }
  | .sub p => w.subs p

/-- The world after one more callback invocation. -/
def World.called (w : World) (logFunc : EctoLogFunc) (msg : EctoLogMessage) : World :=
  { w with calls := w.calls ++ [{ logFunc := logFunc, msg := msg }] }

/-- The world after the struct at address `p` was overwritten. -/
def World.stored (w : World) (p : Ptr) (s : ectoSubLogger) : World :=
  { w with subs := fun q => if q = p then some s else w.subs q }

/-- The world after a struct was allocated at the next free address. -/
def World.allocated (w : World) (s : ectoSubLogger) : World :=
  { w with subs := fun q => if q = w.next then some s else w.subs q, next := w.next + 1 }

/-- The callback invocations on record once `prog` has run from `w`; `none`
when `prog` has no result. -/
def callsAfter {α : Type} (prog : M α) (w : World) : Option (List Call) :=
  (prog.run w).map (fun r => r.2.calls)

/-- What the logger returned by `prog` carries once `prog` has run from `w`. -/
def carriedAfter (prog : M Logger) (w : World) : Option ectoSubLogger :=
  (prog.run w).bind (fun r => r.1.carried r.2)

/-- A call of `WithFields` or `WithField`. -/
inductive FieldOp where
  | withFields (fields : FieldMap)
  | withField (key : String) (value : Value)

/-- One field call on a logger. -/
def FieldOp.run (l : Logger) : FieldOp → M Logger
  | .withFields fields => l.WithFields fields
  | .withField key value => l.WithField key value

/-- A sequence of field calls, each made on the logger `l`. -/
def fieldCalls (l : Logger) : List FieldOp → M Unit
  | [] => pure ()
  | op :: ops => do
      let _ ← op.run l
      fieldCalls l ops

/-- A world in which one derived logger lives at address `0`. -/
def World.sample : World :=
  { subs := fun q => if q = 0 then
      some { logFunc := 5, fields := AList.singleton "a" (Value.int 1),
             err := some { text := "boom" }, ctx := some 3 }
      else none,
    next := 1, calls := [] }

/-! ## The zap adapter (`zapadapter/adapter.go`)

The adapter calls into the external module `go.uber.org/zap`: the level parser
`zapcore.ParseLevel`, the field constructors `zap.Any` and `zap.Error`, and the
method `Logger.Log`. A zap logger is known here by the calls of `Log` made on
it; what zap does with an entry is its own business. -/

/-- The levels of `zapcore.Level`. -/
inductive ZapLevel where
  | DebugLevel | InfoLevel | WarnLevel | ErrorLevel | DPanicLevel | PanicLevel | FatalLevel
deriving DecidableEq, Repr

/-- A `zap.Field` as the adapter builds it: `zap.Any(key, value)` or
`zap.Error(err)` for a non-nil `err`. -/
inductive ZapField where
  | Any (key : String) (value : Value)
  | Error (err : GoError)
deriving DecidableEq, Repr

/-- One call `zapLogger.Log(level, msg, fields...)`. -/
structure ZapLogCall where
  level : ZapLevel
  msg : String
  fields : List ZapField
deriving DecidableEq, Repr

/-- A `*zap.Logger`, known by the calls of `Log` made on it, oldest first. -/
abbrev ZapLogger := List ZapLogCall

/-- The lower-case form of a character as far as a comparison with an ASCII
word can tell: `A` to `Z` become `a` to `z`, and the two letters outside ASCII
whose lower-case form is an ASCII letter, U+0130 and U+212A, become `i` and
`k`. -/
def asciiLower (c : Char) : Char :=
  if 65 ≤ c.toNat ∧ c.toNat ≤ 90 then Char.ofNat (c.toNat + 32)
  else if c.toNat = 304 then Char.ofNat 105
  else if c.toNat = 8490 then Char.ofNat 107
  else c

/-- The level parser of zap, `zapcore.ParseLevel`, as zap documents it: the
seven level names are recognised in any letter case, the empty text reads as
the info level, and every other text is an error, which is `none` here. -/
def zapcore.ParseLevel (text : String) : Option ZapLevel :=
  match String.mk (text.data.map asciiLower) with
  | "debug" => some ZapLevel.DebugLevel
  | "info" => some ZapLevel.InfoLevel
  | "" => some ZapLevel.InfoLevel
  | "warn" => some ZapLevel.WarnLevel
  | "error" => some ZapLevel.ErrorLevel
  | "dpanic" => some ZapLevel.DPanicLevel
  | "panic" => some ZapLevel.PanicLevel
  | "fatal" => some ZapLevel.FatalLevel
  | _ => none

/-- `fieldsToZapFields` converts a field mapping to zap fields, one `zap.Any`
per entry. Go leaves the order of a `range` over a map unspecified; the fields
come here in the order of the entries. -/
def fieldsToZapFields (fields : FieldMap) : List ZapField :=
  fields.entries.map (fun e => ZapField.Any e.1 e.2)

/-- `GetZapLogFunc(zapLogger, before)` applied to `msg`: the calls on record at
`zapLogger` once the log function has returned. `ParseLevel` stands for
`zapcore.ParseLevel`, with `none` for a returned error; `before` is `none` for
a nil hook. -/
def GetZapLogFunc (ParseLevel : String → Option ZapLevel) (zapLogger : ZapLogger)
    (before : Option (EctoLogMessage → EctoLogMessage)) (msg : EctoLogMessage) : ZapLogger :=
  let msg :=
    match before with
    | some f => f msg
    | none => msg
  let zapFields := fieldsToZapFields msg.Fields
  let level :=
    match ParseLevel msg.Level with
    | some level => level
    | none => ZapLevel.InfoLevel
  let zapFields :=
    match msg.Err with
    | some err => zapFields ++ [ZapField.Error err]
    | none => zapFields
  zapLogger ++ [{ level := level, msg := msg.Message, fields := zapFields }]

/-- The message the adapter translates: the one it was given, or the result
of the `before` hook when there is one. -/
def translatedMessage (before : Option (EctoLogMessage → EctoLogMessage))
    (msg : EctoLogMessage) : EctoLogMessage :=
  match before with
  | some f => f msg
  | none => msg

/-! ## Derived loggers whose field map is shared with the callback

A Go map is a reference: the derived entry points put the logger's own map in
the message (`Fields: l.fields`), so the code behind the callback holds the
very map the logger keeps, and a callback may also hold the logger itself.
Here a map is an address into `World.maps`, a message and a logger's struct
hold that address, and a callback is given by what it does to the loggers and
the maps when it is called. The entry points of `ectoSubLogger` are embedded
once more over this world, together with the two `With` methods that assign a
slot. -/

namespace Shared

/-- Address of a `map[string]interface{}`. -/
abbrev MapRef := Nat

/-- The struct `EctoLogMessage` as the callback receives it: `Fields` is the
map itself, not a copy of its contents. -/
structure EctoLogMessage where
  Level : String
  Message : String
  Fields : MapRef
  Ctx : Option GoContext
  Err : Option GoError
deriving DecidableEq, Repr

/-- The struct `ectoSubLogger`, its `fields` being the map it refers to. -/
structure ectoSubLogger where
  logFunc : EctoLogFunc
  fields : MapRef
  err : Option GoError
  ctx : Option GoContext
deriving DecidableEq, Repr

/-- One invocation `logFunc(msg)` made by an entry point, with the contents
the map `msg.Fields` had when the callback was entered. -/
structure Call where
  logFunc : EctoLogFunc
  msg : EctoLogMessage
  fields : Option FieldMap
deriving DecidableEq

/-- State of a run: the struct behind each derived logger, the contents of
each map, and the invocations the entry points have made, oldest first. -/
structure World where
  subs : Ptr → Option ectoSubLogger
  maps : MapRef → Option FieldMap
  calls : List Call

/-- What the code behind the callbacks does: `act logFunc msg w` is the world
the callback `logFunc` leaves when it is called with `msg` in the world `w`.
It may write maps and, through a logger it holds, logger structs. -/
abbrev Behaviour := EctoLogFunc → EctoLogMessage → World → World

/-- Computations over the world; no result on a dangling logger address. -/
abbrev M := StateT World Option

/-- Read the struct behind a pointer. -/
def load (p : Ptr) : M ectoSubLogger := fun w =>
  match w.subs p with
  | some s => some (s, w)
  | none => none

/-- Write the struct behind a pointer. -/
def store (p : Ptr) (s : ectoSubLogger) : M Unit := fun w =>
  some ((), { w with subs := fun q => if q = p then some s else w.subs q })

/-- The world after the invocation `logFunc(msg)`: whatever the callback did
to loggers and maps, and one more invocation on record. -/
def World.afterCall (w : World) (act : Behaviour) (logFunc : EctoLogFunc)
    (msg : EctoLogMessage) : World :=
  { act logFunc msg w with
    calls := w.calls ++ [{ logFunc := logFunc, msg := msg, fields := w.maps msg.Fields }] }

/-- The Go statement `logFunc(msg)`. -/
def invoke (act : Behaviour) (logFunc : EctoLogFunc) (msg : EctoLogMessage) : M Unit :=
  fun w => some ((), w.afterCall act logFunc msg)

section Methods

variable (Sprintf : String → List Value → String) (act : Behaviour)

/-- `WithContext` on a derived logger: `l.ctx = ctx; return l`. -/
def ectoSubLogger.WithContext (l : Ptr) (ctx : Option GoContext) : M Ptr := do
  let s ← load l
  store l { s with ctx := ctx }
  return l

/-- `WithError` on a derived logger: `l.err = err; return l`. -/
def ectoSubLogger.WithError (l : Ptr) (err : Option GoError) : M Ptr := do
  let s ← load l
  store l { s with err := err }
  return l

/-- `Debug` on a derived logger. -/
def ectoSubLogger.Debug (l : Ptr) (msg : String) : M Unit := do
  let s ← load l
  invoke act s.logFunc { Level := "debug", Message := msg, Fields := s.fields, Err := s.err,
                         Ctx := s.ctx }

/-- `Debugf` on a derived logger. -/
def ectoSubLogger.Debugf (l : Ptr) (format : String) (args : List Value) : M Unit := do
  let s ← load l
  invoke act s.logFunc { Level := "debug", Message := Sprintf format args, Fields := s.fields,
                         Err := s.err, Ctx := s.ctx }

/-- `DebugContext` on a derived logger. -/
def ectoSubLogger.DebugContext (l : Ptr) (ctx : Option GoContext) (msg : String) : M Unit := do
  let s ← load l
  invoke act s.logFunc { Level := "debug", Message := msg, Fields := s.fields, Err := s.err,
                         Ctx := ctx }

/-- `DebugContextf` on a derived logger. -/
def ectoSubLogger.DebugContextf (l : Ptr) (ctx : Option GoContext) (format : String)
    (args : List Value) : M Unit := do
  let s ← load l
  invoke act s.logFunc { Level := "debug", Message := Sprintf format args, Fields := s.fields,
                         Err := s.err, Ctx := ctx }

/-- `Info` on a derived logger. -/
def ectoSubLogger.Info (l : Ptr) (msg : String) : M Unit := do
  let s ← load l
  invoke act s.logFunc { Level := "info", Message := msg, Fields := s.fields, Err := s.err,
                         Ctx := s.ctx }

/-- `Infof` on a derived logger. -/
def ectoSubLogger.Infof (l : Ptr) (format : String) (args : List Value) : M Unit := do
  let s ← load l
  invoke act s.logFunc { Level := "info", Message := Sprintf format args, Fields := s.fields,
                         Err := s.err, Ctx := s.ctx }

/-- `InfoContext` on a derived logger. -/
def ectoSubLogger.InfoContext (l : Ptr) (ctx : Option GoContext) (msg : String) : M Unit := do
  let s ← load l
  invoke act s.logFunc { Level := "info", Message := msg, Fields := s.fields, Err := s.err,
                         Ctx := ctx }

/-- `InfoContextf` on a derived logger. -/
def ectoSubLogger.InfoContextf (l : Ptr) (ctx : Option GoContext) (format : String)
    (args : List Value) : M Unit := do
  let s ← load l
  invoke act s.logFunc { Level := "info", Message := Sprintf format args, Fields := s.fields,
                         Err := s.err, Ctx := ctx }

/-- `Warn` on a derived logger. -/
def ectoSubLogger.Warn (l : Ptr) (msg : String) : M Unit := do
  let s ← load l
  invoke act s.logFunc { Level := "warn", Message := msg, Fields := s.fields, Err := s.err,
                         Ctx := s.ctx }

/-- `Warnf` on a derived logger. -/
def ectoSubLogger.Warnf (l : Ptr) (format : String) (args : List Value) : M Unit := do
  let s ← load l
  invoke act s.logFunc { Level := "warn", Message := Sprintf format args, Fields := s.fields,
                         Err := s.err, Ctx := s.ctx }

/-- `WarnContext` on a derived logger. -/
def ectoSubLogger.WarnContext (l : Ptr) (ctx : Option GoContext) (msg : String) : M Unit := do
  let s ← load l
  invoke act s.logFunc { Level := "warn", Message := msg, Fields := s.fields, Err := s.err,
                         Ctx := ctx }

/-- `WarnContextf` on a derived logger. -/
def ectoSubLogger.WarnContextf (l : Ptr) (ctx : Option GoContext) (format : String)
    (args : List Value) : M Unit := do
  let s ← load l
  invoke act s.logFunc { Level := "warn", Message := Sprintf format args, Fields := s.fields,
                         Err := s.err, Ctx := ctx }

/-- `Error` on a derived logger. -/
def ectoSubLogger.Error (l : Ptr) (msg : String) : M Unit := do
  let s ← load l
  invoke act s.logFunc { Level := "error", Message := msg, Fields := s.fields, Err := s.err,
                         Ctx := s.ctx }

/-- `Errorf` on a derived logger. -/
def ectoSubLogger.Errorf (l : Ptr) (format : String) (args : List Value) : M Unit := do
  let s ← load l
  invoke act s.logFunc { Level := "error", Message := Sprintf format args, Fields := s.fields,
                         Err := s.err, Ctx := s.ctx }

/-- `ErrorContext` on a derived logger. -/
def ectoSubLogger.ErrorContext (l : Ptr) (ctx : Option GoContext) (msg : String) : M Unit := do
  let s ← load l
  invoke act s.logFunc { Level := "error", Message := msg, Fields := s.fields, Err := s.err,
                         Ctx := ctx }

/-- `ErrorContextf` on a derived logger. -/
def ectoSubLogger.ErrorContextf (l : Ptr) (ctx : Option GoContext) (format : String)
    (args : List Value) : M Unit := do
  let s ← load l
  invoke act s.logFunc { Level := "error", Message := Sprintf format args, Fields := s.fields,
                         Err := s.err, Ctx := ctx }

/-- `Fatal` on a derived logger. -/
def ectoSubLogger.Fatal (l : Ptr) (msg : String) : M Unit := do
  let s ← load l
  invoke act s.logFunc { Level := "fatal", Message := msg, Fields := s.fields, Err := s.err,
                         Ctx := s.ctx }

/-- `Fatalf` on a derived logger. -/
def ectoSubLogger.Fatalf (l : Ptr) (format : String) (args : List Value) : M Unit := do
  let s ← load l
  invoke act s.logFunc { Level := "fatal", Message := Sprintf format args, Fields := s.fields,
                         Err := s.err, Ctx := s.ctx }

/-- `FatalContext` on a derived logger. -/
def ectoSubLogger.FatalContext (l : Ptr) (ctx : Option GoContext) (msg : String) : M Unit := do
  let s ← load l
  invoke act s.logFunc { Level := "fatal", Message := msg, Fields := s.fields, Err := s.err,
                         Ctx := ctx }

/-- `FatalContextf` on a derived logger. -/
def ectoSubLogger.FatalContextf (l : Ptr) (ctx : Option GoContext) (format : String)
    (args : List Value) : M Unit := do
  let s ← load l
  invoke act s.logFunc { Level := "fatal", Message := Sprintf format args, Fields := s.fields,
                         Err := s.err, Ctx := ctx }

/-- The plain entry point `<Level>(msg)` of severity `S`. -/
def plain (S : Severity) (l : Ptr) (msg : String) : M Unit :=
  match S with
  | .debug => ectoSubLogger.Debug act l msg
  | .info => ectoSubLogger.Info act l msg
  | .warn => ectoSubLogger.Warn act l msg
  | .error => ectoSubLogger.Error act l msg
  | .fatal => ectoSubLogger.Fatal act l msg

/-- The entry point `<Level>f(format, args...)` of severity `S`. -/
def plainf (S : Severity) (l : Ptr) (format : String) (args : List Value) : M Unit :=
  match S with
  | .debug => ectoSubLogger.Debugf Sprintf act l format args
  | .info => ectoSubLogger.Infof Sprintf act l format args
  | .warn => ectoSubLogger.Warnf Sprintf act l format args
  | .error => ectoSubLogger.Errorf Sprintf act l format args
  | .fatal => ectoSubLogger.Fatalf Sprintf act l format args

/-- The entry point `<Level>Context(ctx, msg)` of severity `S`. -/
def context (S : Severity) (l : Ptr) (ctx : Option GoContext) (msg : String) : M Unit :=
  match S with
  | .debug => ectoSubLogger.DebugContext act l ctx msg
  | .info => ectoSubLogger.InfoContext act l ctx msg
  | .warn => ectoSubLogger.WarnContext act l ctx msg
  | .error => ectoSubLogger.ErrorContext act l ctx msg
  | .fatal => ectoSubLogger.FatalContext act l ctx msg

/-- The entry point `<Level>Contextf(ctx, format, args...)` of severity `S`. -/
def contextf (S : Severity) (l : Ptr) (ctx : Option GoContext) (format : String)
    (args : List Value) : M Unit :=
  match S with
  | .debug => ectoSubLogger.DebugContextf Sprintf act l ctx format args
  | .info => ectoSubLogger.InfoContextf Sprintf act l ctx format args
  | .warn => ectoSubLogger.WarnContextf Sprintf act l ctx format args
  | .error => ectoSubLogger.ErrorContextf Sprintf act l ctx format args
  | .fatal => ectoSubLogger.FatalContextf Sprintf act l ctx format args

end Methods

/-- A callback that writes the map of the message it is handed:
`msg.Fields["seen"] = true`. -/
def marksSeen : Behaviour := fun _ msg w =>
  { w with maps := fun r =>
      if r = msg.Fields then (w.maps r).map (fun m => m.insert "seen" (Value.bool true))
      else w.maps r }

/-- A callback that holds the logger at address `0` and calls
`WithContext` on it with the context `8`. -/
def rebindsContext : Behaviour := fun _ _ w =>
  match (ectoSubLogger.WithContext 0 (some 8)).run w with
  | some (_, w') => w'
  | none => w

/-- A world with one derived logger at address `0`: callback `5`, stored
context `3`, no error, and as fields the map at address `0`, which holds
`{a: 1}`. -/
def World.sample : World :=
  { subs := fun q =>
      if q = 0 then some { logFunc := 5, fields := 0, err := none, ctx := some 3 } else none,
    maps := fun r => if r = 0 then some (AList.singleton "a" (Value.int 1)) else none,
    calls := [] }

/-- The invocations on record once `prog` has run from `w`; `none` when `prog`
has no result. -/
def callsAfter {α : Type} (prog : M α) (w : World) : Option (List Call) :=
  (prog.run w).map (fun r => r.2.calls)

end Shared

/-! ## Running the primitives and the methods -/

theorem run_load (p : Ptr) (w : World) :
    (load p).run w = (w.subs p).map (fun s => (s, w)) := by
  simp only [load, StateT.run]
  cases w.subs p <;> rfl

theorem run_store (p : Ptr) (s : ectoSubLogger) (w : World) :
    (store p s).run w = some ((), w.stored p s) :=
  rfl

theorem run_invoke (f : EctoLogFunc) (m : EctoLogMessage) (w : World) :
    (invoke f m).run w = some ((), w.called f m) :=
  rfl

theorem subs_stored_same (w : World) (p : Ptr) (s : ectoSubLogger) :
    (w.stored p s).subs p = some s := by
  simp [World.stored]

theorem subs_stored_ne (w : World) {p q : Ptr} (s : ectoSubLogger) (h : q ≠ p) :
    (w.stored p s).subs q = w.subs q := by
  simp [World.stored, h]

theorem subs_allocated_next (w : World) (s : ectoSubLogger) :
    (w.allocated s).subs w.next = some s := by
  simp [World.allocated]

theorem subs_allocated_ne (w : World) {q : Ptr} (s : ectoSubLogger) (h : q ≠ w.next) :
    (w.allocated s).subs q = w.subs q := by
  simp [World.allocated, h]

theorem next_allocated (w : World) (s : ectoSubLogger) : (w.allocated s).next = w.next + 1 :=
  rfl

theorem next_stored (w : World) (p : Ptr) (s : ectoSubLogger) : (w.stored p s).next = w.next :=
  rfl

theorem calls_allocated (w : World) (s : ectoSubLogger) : (w.allocated s).calls = w.calls :=
  rfl

theorem calls_stored (w : World) (p : Ptr) (s : ectoSubLogger) :
    (w.stored p s).calls = w.calls :=
  rfl

theorem calls_called (w : World) (f : EctoLogFunc) (m : EctoLogMessage) :
    (w.called f m).calls = w.calls ++ [{ logFunc := f, msg := m }] :=
  rfl

theorem subs_called (w : World) (f : EctoLogFunc) (m : EctoLogMessage) :
    (w.called f m).subs = w.subs :=
  rfl

theorem next_called (w : World) (f : EctoLogFunc) (m : EctoLogMessage) :
    (w.called f m).next = w.next :=
  rfl

theorem stored_stored (w : World) (p : Ptr) (s s' : ectoSubLogger) :
    (w.stored p s).stored p s' = w.stored p s' := by
  simp only [World.stored]
  congr 1
  funext q
  by_cases hq : q = p <;> simp [hq]

theorem stored_self {w : World} {p : Ptr} {s : ectoSubLogger} (h : w.subs p = some s) :
    w.stored p s = w := by
  cases w with
  | mk subs next calls =>
    simp only [World.stored]
    congr 1
    funext q
    by_cases hq : q = p
    · simp [hq, ← h]
    · simp [hq]

section Claims

variable (Sprintf : String → List Value → String)

theorem run_root_plain (w : World) (l : EctoLogger) (S : Severity) (t : String) :
    ((Logger.root l).plain S t).run w =
      some ((), w.called l.logFunc
        { Level := S.name, Message := t, Fields := ∅, Ctx := none, Err := none }) := by
  cases S <;> rfl

theorem run_root_plainf (w : World) (l : EctoLogger) (S : Severity) (format : String)
    (args : List Value) :
    ((Logger.root l).plainf Sprintf S format args).run w =
      some ((), w.called l.logFunc
        { Level := S.name, Message := Sprintf format args, Fields := ∅, Ctx := none,
          Err := none }) := by
  cases S <;> rfl

theorem run_root_context (w : World) (l : EctoLogger) (S : Severity) (ctx : Option GoContext)
    (t : String) :
    ((Logger.root l).context S ctx t).run w =
      some ((), w.called l.logFunc
        { Level := S.name, Message := t, Fields := ∅, Ctx := ctx, Err := none }) := by
  cases S <;> rfl

theorem run_root_contextf (w : World) (l : EctoLogger) (S : Severity) (ctx : Option GoContext)
    (format : String) (args : List Value) :
    ((Logger.root l).contextf Sprintf S ctx format args).run w =
      some ((), w.called l.logFunc
        { Level := S.name, Message := Sprintf format args, Fields := ∅, Ctx := ctx,
          Err := none }) := by
  cases S <;> rfl

theorem run_sub_plain (w : World) (p : Ptr) (S : Severity) (t : String) :
    ((Logger.sub p).plain S t).run w =
      (w.subs p).map (fun s => ((), w.called s.logFunc
        { Level := S.name, Message := t, Fields := s.fields, Ctx := s.ctx, Err := s.err })) := by
  cases S <;> cases h : w.subs p <;>
    simp [Logger.plain, Logger.Debug, Logger.Info, Logger.Warn, Logger.Error, Logger.Fatal,
      ectoSubLogger.Debug, ectoSubLogger.Info, ectoSubLogger.Warn, ectoSubLogger.Error,
      ectoSubLogger.Fatal, Severity.name, run_load, run_invoke, h]

theorem run_sub_plainf (w : World) (p : Ptr) (S : Severity) (format : String)
    (args : List Value) :
    ((Logger.sub p).plainf Sprintf S format args).run w =
      (w.subs p).map (fun s => ((), w.called s.logFunc
        { Level := S.name, Message := Sprintf format args, Fields := s.fields, Ctx := s.ctx,
          Err := s.err })) := by
  cases S <;> cases h : w.subs p <;>
    simp [Logger.plainf, Logger.Debugf, Logger.Infof, Logger.Warnf, Logger.Errorf,
      Logger.Fatalf, ectoSubLogger.Debugf, ectoSubLogger.Infof, ectoSubLogger.Warnf,
      ectoSubLogger.Errorf, ectoSubLogger.Fatalf, Severity.name, run_load, run_invoke, h]

theorem run_sub_context (w : World) (p : Ptr) (S : Severity) (ctx : Option GoContext)
    (t : String) :
    ((Logger.sub p).context S ctx t).run w =
      (w.subs p).map (fun s => ((), w.called s.logFunc
        { Level := S.name, Message := t, Fields := s.fields, Ctx := ctx, Err := s.err })) := by
  cases S <;> cases h : w.subs p <;>
    simp [Logger.context, Logger.DebugContext, Logger.InfoContext, Logger.WarnContext,
      Logger.ErrorContext, Logger.FatalContext, ectoSubLogger.DebugContext,
      ectoSubLogger.InfoContext, ectoSubLogger.WarnContext, ectoSubLogger.ErrorContext,
      ectoSubLogger.FatalContext, Severity.name, run_load, run_invoke, h]

theorem run_sub_contextf (w : World) (p : Ptr) (S : Severity) (ctx : Option GoContext)
    (format : String) (args : List Value) :
    ((Logger.sub p).contextf Sprintf S ctx format args).run w =
      (w.subs p).map (fun s => ((), w.called s.logFunc
        { Level := S.name, Message := Sprintf format args, Fields := s.fields, Ctx := ctx,
          Err := s.err })) := by
  cases S <;> cases h : w.subs p <;>
    simp [Logger.contextf, Logger.DebugContextf, Logger.InfoContextf, Logger.WarnContextf,
      Logger.ErrorContextf, Logger.FatalContextf, ectoSubLogger.DebugContextf,
      ectoSubLogger.InfoContextf, ectoSubLogger.WarnContextf, ectoSubLogger.ErrorContextf,
      ectoSubLogger.FatalContextf, Severity.name, run_load, run_invoke, h]

theorem run_root_WithFields (w : World) (l : EctoLogger) (fields : FieldMap) :
    ((Logger.root l).WithFields fields).run w =
      some (Logger.sub w.next,
        w.allocated { logFunc := l.logFunc, fields := fields, err := none, ctx := none }) :=
  rfl

theorem run_root_WithField (w : World) (l : EctoLogger) (key : String) (value : Value) :
    ((Logger.root l).WithField key value).run w =
      some (Logger.sub w.next,
        w.allocated { logFunc := l.logFunc, fields := AList.singleton key value, err := none,
                      ctx := none }) :=
  rfl

theorem run_root_WithContext (w : World) (l : EctoLogger) (ctx : Option GoContext) :
    ((Logger.root l).WithContext ctx).run w =
      some (Logger.sub w.next,
        w.allocated { logFunc := l.logFunc, fields := ∅, err := none, ctx := ctx }) :=
  rfl

theorem run_root_WithError (w : World) (l : EctoLogger) (err : Option GoError) :
    ((Logger.root l).WithError err).run w =
      some (Logger.sub w.next,
        w.allocated { logFunc := l.logFunc, fields := ∅, err := err, ctx := none }) :=
  rfl

theorem run_sub_WithFields (w : World) (p : Ptr) (fields : FieldMap) :
    ((Logger.sub p).WithFields fields).run w =
      (w.subs p).map (fun s =>
        (Logger.sub p, w.stored p { s with fields := Merge s.fields fields })) := by
  cases h : w.subs p <;>
    simp [Logger.WithFields, ectoSubLogger.WithFields, run_load, run_store, h]

theorem run_sub_WithField (w : World) (p : Ptr) (key : String) (value : Value) :
    ((Logger.sub p).WithField key value).run w =
      (w.subs p).map (fun s =>
        (Logger.sub p,
          w.stored p { s with fields := Merge s.fields (AList.singleton key value) })) := by
  cases h : w.subs p <;>
    simp [Logger.WithField, ectoSubLogger.WithField, run_load, run_store, h]

theorem run_sub_WithContext (w : World) (p : Ptr) (ctx : Option GoContext) :
    ((Logger.sub p).WithContext ctx).run w =
      (w.subs p).map (fun s => (Logger.sub p, w.stored p { s with ctx := ctx })) := by
  cases h : w.subs p <;>
    simp [Logger.WithContext, ectoSubLogger.WithContext, run_load, run_store, h]

theorem run_sub_WithError (w : World) (p : Ptr) (err : Option GoError) :
    ((Logger.sub p).WithError err).run w =
      (w.subs p).map (fun s => (Logger.sub p, w.stored p { s with err := err })) := by
  cases h : w.subs p <;>
    simp [Logger.WithError, ectoSubLogger.WithError, run_load, run_store, h]

theorem run_fieldCalls (p : Ptr) (ops : List FieldOp) :
    ∀ (w : World) (s : ectoSubLogger), w.subs p = some s →
      ∃ s', (fieldCalls (Logger.sub p) ops).run w = some ((), w.stored p s') := by
  induction ops with
  | nil =>
    intro w s h
    exact ⟨s, by rw [stored_self h]; rfl⟩
  | cons op ops ih =>
    intro w s h
    cases op with
    | withFields fields =>
      obtain ⟨s', hs'⟩ := ih (w.stored p { s with fields := Merge s.fields fields }) _
        (subs_stored_same _ _ _)
      refine ⟨s', ?_⟩
      simp [fieldCalls, FieldOp.run, run_sub_WithFields, h, hs', stored_stored]
    | withField key value =>
      obtain ⟨s', hs'⟩ := ih
        (w.stored p { s with fields := Merge s.fields (AList.singleton key value) }) _
        (subs_stored_same _ _ _)
      refine ⟨s', ?_⟩
      simp [fieldCalls, FieldOp.run, run_sub_WithField, h, hs', stored_stored]

/-! ## The claims -/

/-- C1: for every severity `S` and text `t`, the plain entry point of severity
`S` on the root logger built by `NewEctoLogger cb` makes exactly one call of
`cb`, with level `S`, message `t`, an empty field mapping, nil context and nil
error, and changes nothing else in the world. -/
theorem root_plain_emits (w : World) (cb : EctoLogFunc) (S : Severity) (t : String) :
    (NewEctoLogger cb >>= fun l => l.plain S t).run w =
      some ((), w.called cb
        { Level := S.name, Message := t, Fields := ∅, Ctx := none, Err := none }) := by
  cases S <;> rfl

/-- C2: the logger `NewEctoLogger(cb).WithFields(f).WithContext(c).WithError(e)`
makes, on its plain entry point of severity `S` with text `t`, exactly one call
of `cb`, with the message `{Level: S, Message: t, Fields: f, Ctx: c, Err: e}`. -/
theorem chained_plain_emits (w : World) (cb : EctoLogFunc) (f : FieldMap)
    (c : Option GoContext) (e : Option GoError) (S : Severity) (t : String) :
    callsAfter (do let l0 ← NewEctoLogger cb
                   let l1 ← l0.WithFields f
                   let l2 ← l1.WithContext c
                   let l3 ← l2.WithError e
                   l3.plain S t) w =
      some (w.calls ++
        [{ logFunc := cb,
           msg := { Level := S.name, Message := t, Fields := f, Ctx := c, Err := e } }]) := by
  simp [callsAfter, NewEctoLogger, run_root_WithFields, run_sub_WithContext, run_sub_WithError,
    run_sub_plain, subs_allocated_next, subs_stored_same, calls_called, calls_stored,
    calls_allocated]

/-- C3: the message emitted by `root.WithFields(f1).WithFields(f2)` carries the
overlay of `f2` onto `f1`: every key of `f2` has the value `f2` gives it, every
key of `f1` that is not a key of `f2` has the value `f1` gives it, and the keys
present are exactly those of `f1` and `f2`. -/
theorem withFields_twice_overlay (w : World) (r : EctoLogger) (f1 f2 : FieldMap)
    (S : Severity) (t : String) :
    ∃ fields,
      callsAfter (do let a ← (Logger.root r).WithFields f1
                     let b ← a.WithFields f2
                     b.plain S t) w =
        some (w.calls ++
          [{ logFunc := r.logFunc,
             msg := { Level := S.name, Message := t, Fields := fields, Ctx := none,
                      Err := none } }]) ∧
      (∀ k, k ∈ f2 → fields.lookup k = f2.lookup k) ∧
      (∀ k, k ∈ f1 → k ∉ f2 → fields.lookup k = f1.lookup k) ∧
      (∀ k, k ∈ fields ↔ k ∈ f1 ∨ k ∈ f2) := by
  refine ⟨Merge f1 f2, ?_, ?_, ?_, ?_⟩
  · simp [callsAfter, run_root_WithFields, run_sub_WithFields, run_sub_plain,
      subs_allocated_next, subs_stored_same, calls_called, calls_stored, calls_allocated]
  · intro k hk
    exact AList.lookup_union_left hk
  · intro k _ hk
    exact AList.lookup_union_right hk
  · intro k
    rw [Merge, AList.mem_union]
    exact Or.comm

/-- The two examples of field accumulation: `{a: 1}` then `{b: 2}` is emitted
as `{a: 1, b: 2}`, and `{a: 1}` then `{a: 2}` as `{a: 2}`. Each emitted mapping
is shown by its values at `a` and `b` and its number of keys. -/
theorem withFields_examples :
    (callsAfter (do let a ← (Logger.root { logFunc := 0 }).WithFields
                              (AList.singleton "a" (Value.int 1))
                    let b ← a.WithFields (AList.singleton "b" (Value.int 2))
                    b.Info "m") World.empty).map
        (List.map fun c : Call =>
          (c.msg.Fields.lookup "a", c.msg.Fields.lookup "b", c.msg.Fields.keys.length)) =
      some [(some (Value.int 1), some (Value.int 2), 2)] ∧
    (callsAfter (do let a ← (Logger.root { logFunc := 0 }).WithFields
                              (AList.singleton "a" (Value.int 1))
                    let b ← a.WithFields (AList.singleton "a" (Value.int 2))
                    b.Info "m") World.empty).map
        (List.map fun c : Call =>
          (c.msg.Fields.lookup "a", c.msg.Fields.lookup "b", c.msg.Fields.keys.length)) =
      some [(some (Value.int 2), none, 1)] := by
  constructor <;> rfl

/-- C4: on a logger obtained by `WithContext(ctxA)`, the `Context` and
`Contextf` entry points of every severity emit a message whose `Ctx` is the
context `ctxB` passed to the call, and the plain and `f` entry points emit a
message whose `Ctx` is `ctxA`; fields, error and callback are those the logger
carried before. -/
theorem context_argument_overrides (w : World) (l : Logger) (s : ectoSubLogger)
    (h : l.carried w = some s) (ctxA ctxB : Option GoContext) (S : Severity)
    (t format : String) (args : List Value) :
    callsAfter (l.WithContext ctxA >>= fun d => d.context S ctxB t) w =
      some (w.calls ++ [{ logFunc := s.logFunc, msg :=
        { Level := S.name, Message := t, Fields := s.fields, Ctx := ctxB,
          Err := s.err } }]) ∧
    callsAfter (l.WithContext ctxA >>= fun d => d.contextf Sprintf S ctxB format args) w =
      some (w.calls ++ [{ logFunc := s.logFunc, msg :=
        { Level := S.name, Message := Sprintf format args, Fields := s.fields, Ctx := ctxB,
          Err := s.err } }]) ∧
    callsAfter (l.WithContext ctxA >>= fun d => d.plain S t) w =
      some (w.calls ++ [{ logFunc := s.logFunc, msg :=
        { Level := S.name, Message := t, Fields := s.fields, Ctx := ctxA,
          Err := s.err } }]) ∧
    callsAfter (l.WithContext ctxA >>= fun d => d.plainf Sprintf S format args) w =
      some (w.calls ++ [{ logFunc := s.logFunc, msg :=
        { Level := S.name, Message := Sprintf format args, Fields := s.fields, Ctx := ctxA,
          Err := s.err } }]) := by
  cases l with
  | root r =>
    simp only [Logger.carried, Option.some.injEq] at h
    subst h
    simp [callsAfter, run_root_WithContext, run_sub_context, run_sub_contextf, run_sub_plain,
      run_sub_plainf, subs_allocated_next, calls_called, calls_allocated]
  | sub p =>
    simp only [Logger.carried] at h
    simp [callsAfter, run_sub_WithContext, run_sub_context, run_sub_contextf, run_sub_plain,
      run_sub_plainf, h, subs_stored_same, calls_called, calls_stored]

/-- Witness of C4: the derived logger at address `0` of the sample world. -/
theorem context_argument_overrides_witness :
    Logger.carried World.sample (Logger.sub 0) =
      some { logFunc := 5, fields := AList.singleton "a" (Value.int 1),
             err := some { text := "boom" }, ctx := some 3 } ∧
    callsAfter ((Logger.sub 0).WithContext (some 1) >>= fun d =>
        d.context Severity.warn (some 2) "m") World.sample =
      some (World.sample.calls ++ [{ logFunc := 5, msg :=
        { Level := Severity.warn.name, Message := "m",
          Fields := AList.singleton "a" (Value.int 1), Ctx := some 2,
          Err := some { text := "boom" } } }]) :=
  ⟨rfl, (context_argument_overrides (fun _ _ => "") World.sample (Logger.sub 0)
    { logFunc := 5, fields := AList.singleton "a" (Value.int 1),
      err := some { text := "boom" }, ctx := some 3 } rfl (some 1) (some 2) Severity.warn
    "m" "" []).1⟩

/-- C5: evaluation of the code where the claim fails. On a derived logger `d`
carrying `{a: 1}`, the call `d.WithFields({b: 2})` returns `d` itself (the same
address, not a new logger), and the message `d` emits afterwards carries the
key `b`, which the message `d` emitted before the call did not carry. -/
theorem sub_WithFields_mutates_receiver :
    (do let r ← NewEctoLogger 0
        let d ← r.WithFields (AList.singleton "a" (Value.int 1))
        d.Info "before"
        let d' ← d.WithFields (AList.singleton "b" (Value.int 2))
        d.Info "after"
        return (d, d', (← get).calls.map (fun c : Call => c.msg.Fields.lookup "b"))).run' World.empty =
      some (Logger.sub 0, Logger.sub 0, [none, some (Value.int 2)]) := by
  rfl

/-- C6 fails as stated: on a root logger the entry point `InfoContext` called
with the non-nil context `7` emits a message whose `Ctx` is that context, not
nil. -/
theorem root_InfoContext_forwards_ctx :
    callsAfter ((Logger.root { logFunc := 0 }).InfoContext (some 7) "m") World.empty =
      some [{ logFunc := 0, msg := { Level := "info", Message := "m", Fields := ∅,
                                      Ctx := some 7, Err := none } }] ∧
    (some 7 : Option GoContext) ≠ none := by
  constructor
  · rfl
  · decide

/-- C6, amended: every one of the twenty entry points of a root logger makes
one call of the callback with an empty field mapping and a nil error; the
plain and `f` entry points emit a nil context, and the `Context` and `Contextf`
entry points emit the context passed to the call. -/
theorem root_entry_points_emit (w : World) (r : EctoLogger) (S : Severity)
    (ctx : Option GoContext) (t format : String) (args : List Value) :
    ((Logger.root r).plain S t).run w =
      some ((), w.called r.logFunc
        { Level := S.name, Message := t, Fields := ∅, Ctx := none, Err := none }) ∧
    ((Logger.root r).plainf Sprintf S format args).run w =
      some ((), w.called r.logFunc
        { Level := S.name, Message := Sprintf format args, Fields := ∅, Ctx := none,
          Err := none }) ∧
    ((Logger.root r).context S ctx t).run w =
      some ((), w.called r.logFunc
        { Level := S.name, Message := t, Fields := ∅, Ctx := ctx, Err := none }) ∧
    ((Logger.root r).contextf Sprintf S ctx format args).run w =
      some ((), w.called r.logFunc
        { Level := S.name, Message := Sprintf format args, Fields := ∅, Ctx := ctx,
          Err := none }) :=
  ⟨run_root_plain w r S t, run_root_plainf Sprintf w r S format args,
    run_root_context w r S ctx t, run_root_contextf Sprintf w r S ctx format args⟩

/-- C7: with `a = r.WithFields(f1)` and `b = r.WithFields(f2)` derived from the
same root `r`, any sequence of `WithFields` and `WithField` calls on `a` leaves
the message `b` emits with the field mapping `f2`, and the root still emits an
empty field mapping. -/
theorem siblings_do_not_share_fields (w : World) (r : EctoLogger) (f1 f2 : FieldMap)
    (ops : List FieldOp) (S S' : Severity) (t t' : String) :
    callsAfter (do let a ← (Logger.root r).WithFields f1
                   let b ← (Logger.root r).WithFields f2
                   fieldCalls a ops
                   b.plain S t
                   (Logger.root r).plain S' t') w =
      some (w.calls ++
        [{ logFunc := r.logFunc,
           msg := { Level := S.name, Message := t, Fields := f2, Ctx := none, Err := none } },
         { logFunc := r.logFunc,
           msg := { Level := S'.name, Message := t', Fields := ∅, Ctx := none,
                    Err := none } }]) := by
  have ha : ((w.allocated { logFunc := r.logFunc, fields := f1, err := none,
                            ctx := none }).allocated
      { logFunc := r.logFunc, fields := f2, err := none, ctx := none }).subs w.next =
      some { logFunc := r.logFunc, fields := f1, err := none, ctx := none } := by
    rw [subs_allocated_ne _ _ (by simp [next_allocated]), subs_allocated_next]
  obtain ⟨s', hs'⟩ := run_fieldCalls w.next ops _ _ ha
  have hb : (((w.allocated { logFunc := r.logFunc, fields := f1, err := none,
                             ctx := none }).allocated
      { logFunc := r.logFunc, fields := f2, err := none, ctx := none }).stored w.next
        s').subs (w.next + 1) =
      some { logFunc := r.logFunc, fields := f2, err := none, ctx := none } := by
    rw [subs_stored_ne _ _ (by simp), ← next_allocated w
      { logFunc := r.logFunc, fields := f1, err := none, ctx := none }, subs_allocated_next]
  simp [callsAfter, run_root_WithFields, next_allocated, hs', run_sub_plain, hb,
    run_root_plain, calls_called, calls_stored, calls_allocated]

/-- C8: on any usable logger, `WithError(e1).WithError(e2)` yields a logger
that carries what the logger carried with the error slot holding `e2`, and
whose message has `Err = e2`; `e1` appears nowhere in it. -/
theorem withError_replaces (w : World) (l : Logger) (s : ectoSubLogger)
    (h : l.carried w = some s) (e1 e2 : Option GoError) (S : Severity) (t : String) :
    carriedAfter (l.WithError e1 >>= fun a => a.WithError e2) w =
      some { s with err := e2 } ∧
    callsAfter (do let a ← l.WithError e1
                   let b ← a.WithError e2
                   b.plain S t) w =
      some (w.calls ++ [{ logFunc := s.logFunc, msg :=
        { Level := S.name, Message := t, Fields := s.fields, Ctx := s.ctx,
          Err := e2 } }]) := by
  cases l with
  | root r =>
    simp only [Logger.carried, Option.some.injEq] at h
    subst h
    simp [callsAfter, carriedAfter, run_root_WithError, run_sub_WithError, run_sub_plain,
      subs_allocated_next, subs_stored_same, calls_called, calls_stored, calls_allocated,
      Logger.carried]
  | sub p =>
    simp only [Logger.carried] at h
    simp [callsAfter, carriedAfter, run_sub_WithError, run_sub_plain, h, subs_stored_same,
      calls_called, calls_stored, Logger.carried]

/-- Witness of C8: the derived logger at address `0` of the sample world. -/
theorem withError_replaces_witness :
    Logger.carried World.sample (Logger.sub 0) =
      some { logFunc := 5, fields := AList.singleton "a" (Value.int 1),
             err := some { text := "boom" }, ctx := some 3 } ∧
    callsAfter (do let a ← (Logger.sub 0).WithError (some { text := "e1" })
                   let b ← a.WithError (some { text := "e2" })
                   b.plain Severity.error "m") World.sample =
      some (World.sample.calls ++ [{ logFunc := 5, msg :=
        { Level := Severity.error.name, Message := "m",
          Fields := AList.singleton "a" (Value.int 1), Ctx := some 3,
          Err := some { text := "e2" } } }]) :=
  ⟨rfl, (withError_replaces World.sample (Logger.sub 0)
    { logFunc := 5, fields := AList.singleton "a" (Value.int 1),
      err := some { text := "boom" }, ctx := some 3 } rfl (some { text := "e1" })
    (some { text := "e2" }) Severity.error "m").2⟩

/-! ## Context calls on a derived logger whose map the callback shares -/

namespace Shared

theorem shared_run_load (p : Ptr) (w : World) :
    (load p).run w = (w.subs p).map (fun s => (s, w)) := by
  simp only [load, StateT.run]
  cases w.subs p <;> rfl

theorem shared_run_invoke (act : Behaviour) (f : EctoLogFunc) (m : EctoLogMessage) (w : World) :
    (invoke act f m).run w = some ((), w.afterCall act f m) :=
  rfl

theorem shared_run_plain (act : Behaviour) (w : World) (p : Ptr) (S : Severity) (t : String) :
    (plain act S p t).run w =
      (w.subs p).map (fun s => ((), w.afterCall act s.logFunc
        { Level := S.name, Message := t, Fields := s.fields, Ctx := s.ctx, Err := s.err })) := by
  cases S <;> cases h : w.subs p <;>
    simp [plain, ectoSubLogger.Debug, ectoSubLogger.Info, ectoSubLogger.Warn,
      ectoSubLogger.Error, ectoSubLogger.Fatal, Severity.name, shared_run_load, shared_run_invoke, h]

theorem shared_run_context (act : Behaviour) (w : World) (p : Ptr) (S : Severity)
    (ctx : Option GoContext) (t : String) :
    (context act S p ctx t).run w =
      (w.subs p).map (fun s => ((), w.afterCall act s.logFunc
        { Level := S.name, Message := t, Fields := s.fields, Ctx := ctx, Err := s.err })) := by
  cases S <;> cases h : w.subs p <;>
    simp [context, ectoSubLogger.DebugContext, ectoSubLogger.InfoContext,
      ectoSubLogger.WarnContext, ectoSubLogger.ErrorContext, ectoSubLogger.FatalContext,
      Severity.name, shared_run_load, shared_run_invoke, h]

theorem shared_run_contextf (act : Behaviour) (w : World) (p : Ptr) (S : Severity)
    (ctx : Option GoContext) (format : String) (args : List Value) :
    (contextf Sprintf act S p ctx format args).run w =
      (w.subs p).map (fun s => ((), w.afterCall act s.logFunc
        { Level := S.name, Message := Sprintf format args, Fields := s.fields, Ctx := ctx,
          Err := s.err })) := by
  cases S <;> cases h : w.subs p <;>
    simp [contextf, ectoSubLogger.DebugContextf, ectoSubLogger.InfoContextf,
      ectoSubLogger.WarnContextf, ectoSubLogger.ErrorContextf, ectoSubLogger.FatalContextf,
      Severity.name, shared_run_load, shared_run_invoke, h]

/-- C9 fails as stated when the callback acts on what it can reach. On the
derived logger of the sample world (stored context `3`, fields `{a: 1}`):
with a callback that writes `seen` into the map of the message, the call
`InfoContext(9, "m")` leaves the struct as it was but the stored fields hold
`seen` afterwards, and the next `Info` hands them out so; with a callback that
calls `WithContext(8)` on the logger, the next `Info` emits the context `8`,
not the stored context `3`. -/
theorem callback_changes_what_is_stored :
    (World.sample.maps 0).map AList.keys = some ["a"] ∧
    ((ectoSubLogger.InfoContext marksSeen 0 (some 9) "m").run World.sample).map
        (fun r => (r.2.subs 0, (r.2.maps 0).map AList.keys)) =
      some (some { logFunc := 5, fields := 0, err := none, ctx := some 3 },
            some ["seen", "a"]) ∧
    (callsAfter (do ectoSubLogger.InfoContext marksSeen 0 (some 9) "m"
                    ectoSubLogger.Info marksSeen 0 "n") World.sample).map
        (List.map fun c : Call => (c.msg.Ctx, c.fields.map AList.keys)) =
      some [(some 9, some ["a"]), (some 3, some ["seen", "a"])] ∧
    (callsAfter (do ectoSubLogger.InfoContext rebindsContext 0 (some 9) "m"
                    ectoSubLogger.Info rebindsContext 0 "n") World.sample).map
        (List.map fun c : Call => c.msg.Ctx) =
      some [some 9, some 8] := by
  refine ⟨by rfl, by rfl, by rfl, by rfl⟩

/-- C9, amended: a `Context` or `Contextf` call on a derived logger with struct
`s` stores nothing itself: it invokes the callback once, with the context
`ctxB` and the logger's own field map, and the world afterwards is what the
callback made of it. Whenever the callback leaves the struct of the logger as
it was, the stored context, the stored error and the identity of the field
map are unchanged, and the next plain call emits a message with the stored
context `s.ctx`, the stored error and the same map, whose contents are what
the callback left; they are the contents from before the call whenever the
callback did not write that map. -/
theorem context_call_stores_nothing (act : Behaviour) (w : World) (p : Ptr)
    (s : ectoSubLogger) (h : w.subs p = some s) (ctxB : Option GoContext) (S S' : Severity)
    (t t' format : String) (args : List Value) :
    (context act S p ctxB t).run w =
      some ((), w.afterCall act s.logFunc
        { Level := S.name, Message := t, Fields := s.fields, Ctx := ctxB, Err := s.err }) ∧
    (contextf Sprintf act S p ctxB format args).run w =
      some ((), w.afterCall act s.logFunc
        { Level := S.name, Message := Sprintf format args, Fields := s.fields, Ctx := ctxB,
          Err := s.err }) ∧
    ∀ text : String,
      (act s.logFunc { Level := S.name, Message := text, Fields := s.fields, Ctx := ctxB,
                       Err := s.err } w).subs p = some s →
      (w.afterCall act s.logFunc
        { Level := S.name, Message := text, Fields := s.fields, Ctx := ctxB,
          Err := s.err }).subs p = some s ∧
      callsAfter (plain act S' p t')
          (w.afterCall act s.logFunc
            { Level := S.name, Message := text, Fields := s.fields, Ctx := ctxB,
              Err := s.err }) =
        some (w.calls ++
          [{ logFunc := s.logFunc,
             msg := { Level := S.name, Message := text, Fields := s.fields, Ctx := ctxB,
                      Err := s.err },
             fields := w.maps s.fields },
           { logFunc := s.logFunc,
             msg := { Level := S'.name, Message := t', Fields := s.fields, Ctx := s.ctx,
                      Err := s.err },
             fields := (act s.logFunc { Level := S.name, Message := text, Fields := s.fields,
                                        Ctx := ctxB, Err := s.err } w).maps s.fields }]) ∧
      ((act s.logFunc { Level := S.name, Message := text, Fields := s.fields, Ctx := ctxB,
                        Err := s.err } w).maps s.fields = w.maps s.fields →
        (w.afterCall act s.logFunc
          { Level := S.name, Message := text, Fields := s.fields, Ctx := ctxB,
            Err := s.err }).maps s.fields = w.maps s.fields) := by
  refine ⟨?_, ?_, ?_⟩
  · simp [shared_run_context, h]
  · simp [shared_run_contextf, h]
  · intro text hkeep
    have hsub : (w.afterCall act s.logFunc
        { Level := S.name, Message := text, Fields := s.fields, Ctx := ctxB,
          Err := s.err }).subs p = some s := hkeep
    refine ⟨hsub, ?_, fun hmap => hmap⟩
    rw [callsAfter, shared_run_plain, hsub]
    simp [World.afterCall]

/-- Witness of the amended C9: the derived logger of the sample world, called
with the context `9`, the callback being the one that writes `seen` into the
map it is handed. That callback leaves the struct as it was, and the next
plain call emits the stored context `3`. -/
theorem context_call_stores_nothing_witness :
    World.sample.subs 0 = some { logFunc := 5, fields := 0, err := none, ctx := some 3 } ∧
    (marksSeen 5 { Level := "info", Message := "m", Fields := 0, Ctx := some 9, Err := none }
        World.sample).subs 0 =
      some { logFunc := 5, fields := 0, err := none, ctx := some 3 } ∧
    (callsAfter (plain marksSeen Severity.debug 0 "n")
        (World.sample.afterCall marksSeen 5
          { Level := "info", Message := "m", Fields := 0, Ctx := some 9, Err := none })).map
        (List.map fun c : Call => (c.msg.Level, c.msg.Ctx)) =
      some [("info", some 9), ("debug", some 3)] :=
  ⟨rfl, rfl,
    congrArg (Option.map (List.map fun c : Call => (c.msg.Level, c.msg.Ctx)))
      ((context_call_stores_nothing (fun _ _ => "") marksSeen World.sample 0
        { logFunc := 5, fields := 0, err := none, ctx := some 3 } rfl (some 9) Severity.info
        Severity.debug "m" "n" "" []).2.2 "m" rfl).2.1⟩

end Shared

/-! ## The header of the standard logger is never the start of a JSON text -/

theorem isDigit_digitChar : ∀ k, k < 10 → isDigit (Nat.digitChar k) = true := by
  decide

theorem isDigit_toDigitsCore (f : Nat) :
    ∀ (n : Nat) (acc : List Char), (∀ c ∈ acc, isDigit c = true) →
      ∀ c ∈ Nat.toDigitsCore 10 f n acc, isDigit c = true := by
  induction f with
  | zero =>
    intro n acc hacc c hc
    simpa [Nat.toDigitsCore] using hacc c hc
  | succ f ih =>
    intro n acc hacc c hc
    have hd : ∀ x ∈ Nat.digitChar (n % 10) :: acc, isDigit x = true := by
      intro x hx
      rcases List.mem_cons.mp hx with rfl | hx
      · exact isDigit_digitChar _ (Nat.mod_lt _ (by decide))
      · exact hacc x hx
    simp only [Nat.toDigitsCore] at hc
    split at hc
    · exact hd c hc
    · exact ih _ _ hd c hc

theorem toDigitsCore_ne_nil (f : Nat) :
    ∀ (n : Nat) (acc : List Char), acc ≠ [] → Nat.toDigitsCore 10 f n acc ≠ [] := by
  induction f with
  | zero =>
    intro n acc hacc
    simpa [Nat.toDigitsCore] using hacc
  | succ f ih =>
    intro n acc _
    simp only [Nat.toDigitsCore]
    split
    · simp
    · exact ih _ _ (by simp)

theorem padded_digits (width n : Nat) : ∀ c ∈ padded width n, isDigit c = true := by
  intro c hc
  simp only [padded, List.mem_append, List.mem_replicate] at hc
  rcases hc with ⟨_, rfl⟩ | hc
  · decide
  · exact isDigit_toDigitsCore _ _ [] (by simp) c hc

theorem padded_ne_nil (width n : Nat) : padded width n ≠ [] := by
  have h : Nat.toDigits 10 n ≠ [] := by
    simp only [Nat.toDigits, Nat.toDigitsCore]
    split
    · simp
    · exact toDigitsCore_ne_nil _ _ _ (by simp)
  simp [padded, h]

theorem takeDigits_digits (ds : List Char) (hds : ∀ c ∈ ds, isDigit c = true) (x : Char)
    (hx : isDigit x = false) (rest : List Char) :
    takeDigits (ds ++ x :: rest) = (ds, x :: rest) := by
  induction ds with
  | nil => simp [takeDigits, hx]
  | cons d ds ih =>
    have hd : isDigit d = true := hds d (by simp)
    have ih' := ih (fun c hc => hds c (by simp [hc]))
    simp [takeDigits, hd, ih']

theorem skipWs_digit (d : Char) (hd : isDigit d = true) (rest : List Char) :
    skipWs (d :: rest) = d :: rest := by
  have h : isWs d = false := by
    simp only [isDigit, Bool.and_eq_true, decide_eq_true_eq] at hd
    simp only [isWs, Bool.or_eq_false_iff, beq_eq_false_iff_ne, ne_eq]
    omega
  simp [skipWs, h]

theorem parseValue_digits_slash (fuel : Nat) (d : Char) (more : List Char)
    (hd : isDigit d = true) (hmore : ∀ c ∈ more, isDigit c = true) (tail : List Char) :
    ∃ lit rest,
      parseValue (fuel + 1) (d :: more ++ Char.ofNat 47 :: tail) = some (Json.num lit, rest) ∧
      skipWs rest ≠ [] := by
  have hslash : isDigit (Char.ofNat 47) = false := by decide
  have hn := hd
  simp only [isDigit, Bool.and_eq_true, decide_eq_true_eq] at hn
  have htake : takeDigits (d :: (more ++ Char.ofNat 47 :: tail)) =
      (d :: more, Char.ofNat 47 :: tail) := by
    have := takeDigits_digits (d :: more)
      (by intro c hc; rcases List.mem_cons.mp hc with rfl | hc; exact hd; exact hmore c hc)
      (Char.ofNat 47) hslash tail
    simpa using this
  have h47 : (Char.ofNat 47).toNat = 47 := by decide
  have hws : skipWs (Char.ofNat 47 :: tail) = Char.ofNat 47 :: tail := by
    have : isWs (Char.ofNat 47) = false := by decide
    simp [skipWs, this]
  have e1 : d.toNat ≠ 123 := by omega
  have e2 : d.toNat ≠ 91 := by omega
  have e3 : d.toNat ≠ 34 := by omega
  have e4 : d.toNat ≠ 116 := by omega
  have e5 : d.toNat ≠ 102 := by omega
  have e6 : d.toNat ≠ 110 := by omega
  have e7 : d.toNat ≠ 45 := by omega
  by_cases hz : d.toNat = 48 ∧ more ≠ []
  · refine ⟨String.mk [d], more ++ Char.ofNat 47 :: tail, ?_, ?_⟩
    · simp [parseValue, skipWs_digit d hd, parseNumber, htake, e1, e2, e3, e4, e5, e6, e7, hz.1,
        hz.2]
    · obtain ⟨m, ms, rfl⟩ := List.exists_cons_of_ne_nil hz.2
      have hm : isDigit m = true := hmore m (by simp)
      simp [skipWs_digit m hm]
  · refine ⟨String.mk (d :: more), Char.ofNat 47 :: tail, ?_, ?_⟩
    · simp [parseValue, skipWs_digit d hd, parseNumber, htake, e1, e2, e3, e4, e5, e6, e7, hz, h47]
    · simp [hws]

theorem parseDocument_digits_slash (fuel : Nat) (ds : List Char) (hne : ds ≠ [])
    (hds : ∀ c ∈ ds, isDigit c = true) (tail : List Char) :
    parseDocument fuel (ds ++ Char.ofNat 47 :: tail) = none := by
  cases fuel with
  | zero => simp [parseDocument, parseValue]
  | succ n =>
    obtain ⟨d, more, rfl⟩ := List.exists_cons_of_ne_nil hne
    obtain ⟨lit, rest, hp, hrest⟩ := parseValue_digits_slash n d more (hds d (by simp))
      (fun c hc => hds c (by simp [hc])) tail
    simp only [List.cons_append] at hp
    simp [parseDocument, hp, hrest]

theorem logPrint_not_json (fuel : Nat) (t : Time) (s : List Char) :
    parseDocument fuel (logPrint t s).data = none := by
  have h : (logPrint t s).data = padded 4 t.year ++ Char.ofNat 47 ::
      (padded 2 t.month ++ Char.ofNat 47 :: padded 2 t.day ++
        Char.ofNat 32 :: padded 2 t.hour ++ Char.ofNat 58 :: padded 2 t.minute ++
        Char.ofNat 58 :: padded 2 t.second ++ [Char.ofNat 32] ++ s ++
        (if s.getLast? = some (Char.ofNat 10) then [] else [Char.ofNat 10])) := by
    simp [logPrint, Time.logHeader]
  rw [h]
  exact parseDocument_digits_slash fuel _ (padded_ne_nil 4 t.year) (padded_digits 4 t.year) _

/-- Whatever the message and the clock, the text `DefaultEctoLogFunc` writes is
not a JSON text: it starts with the date of the standard logger's header. -/
theorem DefaultEctoLogFunc_never_json (clock : Clock) (msg : EctoLogMessage) :
    jsonUnmarshal (DefaultEctoLogFunc clock msg) = none := by
  unfold jsonUnmarshal DefaultEctoLogFunc
  split <;> exact logPrint_not_json _ _ _

set_option maxRecDepth 100000 in
/-- C10: evaluation of the code where the claim fails, at the message of
`TestDefaultEctoLogFunc`. The text written to the log output starts with the
date and time header of the standard logger, so it is not a JSON text, for any
bound on the parsing steps; and in the object that follows the header the
member `err` is the empty object, not the string `test error`. -/
theorem DefaultEctoLogFunc_line_is_not_json :
    DefaultEctoLogFunc sampleClock testMessage =
      "2024/05/01 10:00:00 \x7b\"err\":\x7b\x7d,\"key\":\"value\",\"level\":\"info\",\"message\":\"test message\",\"time\":\"2024-05-01T10:00:00Z\"\x7d\n" ∧
    (∀ fuel, (parseDocument fuel (DefaultEctoLogFunc sampleClock testMessage).data).isNone
      = true) ∧
    (jsonUnmarshal (DefaultEctoLogFunc sampleClock testMessage)).isNone = true ∧
    (((jsonUnmarshal ((DefaultEctoLogFunc sampleClock testMessage).drop 20)).bind
      (fun doc => doc.get? "err")).map Json.isEmptyObject) = some true := by
  refine ⟨by decide, ?_, by decide, by decide⟩
  intro fuel
  cases fuel with
  | zero => rfl
  | succ n => rfl

/-! ## The mapping serialised by the default console backend -/

/-- An evaluation of the overlay: for a message at level `info` whose fields
give `level` the string `custom` and `time` the number `5`, the line written
carries the values of the fields under `level` and `time`. -/
theorem DefaultEctoLogFunc_fields_override_example :
    DefaultEctoLogFunc sampleClock
        { Level := "info", Message := "m",
          Fields := (AList.singleton "level" (Value.str "custom")).insert "time" (Value.int 5),
          Ctx := none, Err := none } =
      "2024/05/01 10:00:00 \x7b\"err\":null,\"level\":\"custom\",\"message\":\"m\",\"time\":5\x7d\n" := by
  decide

/-- C11: the mapping `DefaultEctoLogFunc` hands to `json.Marshal` is the seeded
mapping `{level, message, err, time}` overlaid with the message's fields, the
fields winning on collision: every key of the fields, the four seeded keys
included, has the value the fields give it; each seeded key that is not a key
of the fields keeps its seeded value; and the keys present are exactly the
seeded keys and the keys of the fields. This mapping is the one serialised. -/
theorem jsonMsg_is_seed_overlaid_with_fields (clock : Clock) (msg : EctoLogMessage) :
    (∀ k, k ∈ msg.Fields →
      (DefaultEctoLogFunc.jsonMsg clock.now.rfc3339 msg).lookup k = msg.Fields.lookup k) ∧
    ("level" ∉ msg.Fields →
      (DefaultEctoLogFunc.jsonMsg clock.now.rfc3339 msg).lookup "level" =
        some (Value.str msg.Level)) ∧
    ("message" ∉ msg.Fields →
      (DefaultEctoLogFunc.jsonMsg clock.now.rfc3339 msg).lookup "message" =
        some (Value.str msg.Message)) ∧
    ("err" ∉ msg.Fields →
      (DefaultEctoLogFunc.jsonMsg clock.now.rfc3339 msg).lookup "err" =
        some (errorValue msg.Err)) ∧
    ("time" ∉ msg.Fields →
      (DefaultEctoLogFunc.jsonMsg clock.now.rfc3339 msg).lookup "time" =
        some (Value.str clock.now.rfc3339)) ∧
    (∀ k, k ∈ DefaultEctoLogFunc.jsonMsg clock.now.rfc3339 msg ↔
      k ∈ msg.Fields ∨ k = "level" ∨ k = "message" ∨ k = "err" ∨ k = "time") ∧
    DefaultEctoLogFunc clock msg =
      (match jsonMarshal (DefaultEctoLogFunc.jsonMsg clock.now.rfc3339 msg) with
       | .error err =>
         logPrint clock.logNow ("Error marshalling log message to JSON: ".data ++ err.data)
       | .ok json => logPrint clock.logNow json) := by
  refine ⟨?_, ?_, ?_, ?_, ?_, ?_, rfl⟩
  · intro k hk
    exact AList.lookup_union_left hk
  · intro h
    simp only [DefaultEctoLogFunc.jsonMsg, Merge]
    rw [AList.lookup_union_right h, AList.lookup_insert_ne (by decide),
      AList.lookup_insert_ne (by decide), AList.lookup_insert_ne (by decide),
      AList.lookup_insert]
  · intro h
    simp only [DefaultEctoLogFunc.jsonMsg, Merge]
    rw [AList.lookup_union_right h, AList.lookup_insert_ne (by decide),
      AList.lookup_insert_ne (by decide), AList.lookup_insert]
  · intro h
    simp only [DefaultEctoLogFunc.jsonMsg, Merge]
    rw [AList.lookup_union_right h, AList.lookup_insert_ne (by decide), AList.lookup_insert]
  · intro h
    simp only [DefaultEctoLogFunc.jsonMsg, Merge]
    rw [AList.lookup_union_right h, AList.lookup_insert]
  · intro k
    simp only [DefaultEctoLogFunc.jsonMsg, Merge, AList.mem_union, AList.mem_insert,
      AList.not_mem_empty, or_false]
    tauto

/-! ## The zap adapter -/

/-- The five level strings of the facade are recognised by the parser of zap,
each as the level of the same name. -/
theorem zapcore_ParseLevel_severities :
    (List.map (fun S : Severity => zapcore.ParseLevel S.name)
      [Severity.debug, Severity.info, Severity.warn, Severity.error, Severity.fatal]) =
      [some ZapLevel.DebugLevel, some ZapLevel.InfoLevel, some ZapLevel.WarnLevel,
        some ZapLevel.ErrorLevel, some ZapLevel.FatalLevel] := by
  decide

/-- A level the parser recognises is the level of the entry. -/
theorem GetZapLogFunc_recognised (ParseLevel : String → Option ZapLevel)
    (zapLogger : ZapLogger) (before : Option (EctoLogMessage → EctoLogMessage))
    (msg : EctoLogMessage) (level : ZapLevel)
    (h : ParseLevel (translatedMessage before msg).Level = some level) :
    ∃ fields, GetZapLogFunc ParseLevel zapLogger before msg =
      zapLogger ++ [{ level := level, msg := (translatedMessage before msg).Message,
                      fields := fields }] := by
  cases before <;> simp only [translatedMessage] at h <;>
    simp [GetZapLogFunc, translatedMessage, h]

/-- C12: when the level parser returns an error for the `Level` of the message
the adapter translates (the message passed in, or the result of the `before`
hook when one is given), the log function makes exactly one call of `Log`, at
the info level, with that message's text and with one `zap.Any` field for
every entry of its fields, followed by the `zap.Error` field when the message
has an error; the parser's error goes nowhere. -/
theorem unrecognised_level_logged_at_info (ParseLevel : String → Option ZapLevel)
    (zapLogger : ZapLogger) (before : Option (EctoLogMessage → EctoLogMessage))
    (msg : EctoLogMessage)
    (h : ParseLevel (translatedMessage before msg).Level = none) :
    GetZapLogFunc ParseLevel zapLogger before msg =
      zapLogger ++
        [{ level := ZapLevel.InfoLevel,
           msg := (translatedMessage before msg).Message,
           fields := fieldsToZapFields (translatedMessage before msg).Fields ++
             (match (translatedMessage before msg).Err with
              | some err => [ZapField.Error err]
              | none => []) }] ∧
    (∀ k v, (translatedMessage before msg).Fields.lookup k = some v →
      ZapField.Any k v ∈ fieldsToZapFields (translatedMessage before msg).Fields) := by
  constructor
  · cases before with
    | none =>
      simp only [translatedMessage] at h
      cases hE : msg.Err <;> simp [GetZapLogFunc, translatedMessage, h, hE]
    | some f =>
      simp only [translatedMessage] at h
      cases hE : (f msg).Err <;> simp [GetZapLogFunc, translatedMessage, h, hE]
  · intro k v hkv
    have hmem : (⟨k, v⟩ : Sigma fun _ : String => Value) ∈
        (translatedMessage before msg).Fields.entries :=
      AList.mem_lookup_iff.mp (by simp [hkv])
    exact List.mem_map.mpr ⟨⟨k, v⟩, hmem, rfl⟩

/-- Witness of C12: with the parser of zap and no hook, a message at the level
`trace`, which zap does not know, is logged once at the info level with its
text and its field. -/
theorem unrecognised_level_logged_at_info_witness :
    zapcore.ParseLevel "trace" = none ∧
    GetZapLogFunc zapcore.ParseLevel [] none
        { Level := "trace", Message := "m",
          Fields := AList.singleton "key" (Value.str "value"), Ctx := none, Err := none } =
      [{ level := ZapLevel.InfoLevel, msg := "m",
         fields := [ZapField.Any "key" (Value.str "value")] }] :=
  ⟨by decide,
    (unrecognised_level_logged_at_info zapcore.ParseLevel [] none
      { Level := "trace", Message := "m",
        Fields := AList.singleton "key" (Value.str "value"), Ctx := none, Err := none }
      (by decide)).1⟩

end Claims

end Ectologger
